import Mathlib

/-!
Verification development for the OCR-PII pipeline repository.

The Python sources are shallowly embedded:
* strings are `List Char` (`Str`), character offsets are `Nat`;
* Python floats are modelled as `Rat` (all constants involved are exact
  decimal fractions and the claims do not depend on binary rounding);
* the `re` module is embedded by a small backtracking regular-expression
  engine (`Rx`, `mrun`, `finditer`, `subAll`) implementing the leftmost,
  first-alternative, greedy/lazy semantics of Python's `re`, for exactly
  the constructs the repository's patterns use; each Python pattern is
  transcribed literally into an `Rx` value;
* external collaborators (image filters, OCR library calls, the file
  system) are abstracted as explicit inputs, per the spec's scope:
  only the decision logic of the repository is embedded.
-/

/-! ### Basic string model (Python `str` as `List Char`) -/

abbrev Str := List Char

def strL (s : String) : Str := s.data

/-- Python's `\s` / `str.split()` / `str.strip()` whitespace, ASCII part. -/
def pyIsSpace (c : Char) : Bool :=
  c = ' ' || c = '\t' || c = '\n' || c = '\r' || c = '\x0b' || c = '\x0c'

def isDigitC (c : Char) : Bool := '0' ≤ c && c ≤ '9'

def isLowerC (c : Char) : Bool := 'a' ≤ c && c ≤ 'z'

def isUpperC (c : Char) : Bool := 'A' ≤ c && c ≤ 'Z'

/-- Python `\w` (ASCII). -/
def isWordC (c : Char) : Bool := isLowerC c || isUpperC c || isDigitC c || c = '_'

/-- ASCII case swap (used to implement `re.IGNORECASE`). -/
def swapCase (c : Char) : Char :=
  if isLowerC c then Char.ofNat (c.toNat - 32)
  else if isUpperC c then Char.ofNat (c.toNat + 32)
  else c

/-- Python `str.lower()` (ASCII part). -/
def pyLower (s : Str) : Str := s.map Char.toLower

/-- Python slice `s[a:b]` (with clamping). -/
def pySlice (s : Str) (a b : Nat) : Str := (s.drop a).take (b - a)

/-- Python `str.strip()`: drop leading and trailing whitespace. -/
def pyStrip (s : Str) : Str :=
  ((s.dropWhile pyIsSpace).reverse.dropWhile pyIsSpace).reverse

/-- Fuel-indexed worker for `pySplit` (structural recursion on the fuel,
so that the kernel can evaluate it; `fuel = length + 1` never runs out
because at least one character is consumed per step). -/
def pySplitAux : Nat → Str → List Str
  | 0, _ => []
  | _, [] => []
  | fuel + 1, c :: cs =>
    if pyIsSpace c then pySplitAux fuel cs
    else (c :: cs.takeWhile (fun x => !pyIsSpace x)) ::
      pySplitAux fuel (cs.dropWhile (fun x => !pyIsSpace x))

/-- Python `str.split()` with no argument: split on whitespace runs,
discarding empty fields. -/
def pySplit (s : Str) : List Str := pySplitAux (s.length + 1) s

/-- `needle` occurs at the start of `hay`. -/
def startsWithL : Str → Str → Bool
  | [], _ => true
  | _ :: _, [] => false
  | a :: as, b :: bs => a = b && startsWithL as bs

/-- Python `needle in hay` for strings (substring test). -/
def strIn : Str → Str → Bool
  | n, [] => n.isEmpty
  | n, c :: rest => startsWithL n (c :: rest) || strIn n rest

/-- Python `str.isdigit()` for ASCII text: nonempty and all digits. -/
def pyIsDigitStr (s : Str) : Bool := !s.isEmpty && s.all isDigitC

/-- Python `min(a, b)` on numbers (kernel-reducible, unlike the lattice
`min` on `Rat`). -/
def ratMin (a b : Rat) : Rat := if a ≤ b then a else b

/-- Python `abs(a)` on numbers. -/
def ratAbs (a : Rat) : Rat := if a < 0 then -a else a

/-! ### A small regex engine for the repository's patterns

Implements Python `re` semantics (leftmost match, first alternative,
greedy/lazy quantifiers with full backtracking, atomic lookarounds) for
the constructs used by the repository: character classes, `.`,
concatenation, alternation, greedy `*`/`+`/`?`/`{m,n}`, lazy `+?`,
numbered capture groups, lookahead `(?=…)`, single-character lookbehind
`(?<=[…])`, word boundary `\b`, end anchor `$`, and `re.IGNORECASE`. -/

inductive CCAtom where
  | chr (c : Char)
  | range (lo hi : Char)
  | digit
  | space
  | word
deriving DecidableEq

structure CC where
  neg : Bool
  atoms : List CCAtom
deriving DecidableEq

def ccAtomMatch : CCAtom → Char → Bool
  | .chr a, c => a = c
  | .range lo hi, c => lo ≤ c && c ≤ hi
  | .digit, c => isDigitC c
  | .space, c => pyIsSpace c
  | .word, c => isWordC c

/-- Membership of `c` in the (un-negated) set of a class, folding case
when `ic` is set, then applying negation: Python's semantics for
case-insensitive (possibly negated) classes. -/
def ccMatch (ic : Bool) (cc : CC) (c : Char) : Bool :=
  let pos := fun ch => cc.atoms.any (ccAtomMatch · ch)
  let m := if ic then pos c || pos (swapCase c) else pos c
  m != cc.neg

inductive Rx where
  | eps
  | cls (cc : CC)
  | dot
  | cat (a b : Rx)
  | alt (a b : Rx)
  | star (r : Rx)
  | starL (r : Rx)
  | grp (n : Nat) (r : Rx)
  | look (r : Rx)
  | lookb (cc : CC)
  | wb
  | eol
deriving DecidableEq

/-- Group captures: `(group index, start, end)`, most recent first
(as in Python, the last assignment to a group wins). -/
abbrev Caps := List (Nat × Nat × Nat)

def getCap (caps : Caps) (n : Nat) : Option (Nat × Nat) :=
  match caps.find? (fun e => e.1 = n) with
  | some (_, s, e) => some (s, e)
  | none => none

def isWordAt (s : Str) (i : Nat) : Bool :=
  match s.get? i with
  | some c => isWordC c
  | none => false

def atWb (s : Str) (pos : Nat) : Bool :=
  (if pos = 0 then false else isWordAt s (pos - 1)) != isWordAt s pos

def atEol (s : Str) (pos : Nat) : Bool :=
  pos = s.length || (pos + 1 = s.length && s.get? pos = some '\n')

/-- Backtracking matcher in continuation-passing style.  `fuel` bounds the
number of quantifier iterations; every iteration must consume input (as in
Python, a quantifier stops repeating on an empty-width iteration), so any
`fuel ≥ s.length + 1` is equivalent to no bound. -/
def mrun (s : Str) (ic : Bool) :
    Nat → Rx → Nat → Caps → (Nat → Caps → Option (Nat × Caps)) → Option (Nat × Caps)
  | 0, _, _, _, _ => none
  | fuel + 1, rx, pos, caps, k =>
    match rx with
    | .eps => k pos caps
    | .cls cc =>
      match s.get? pos with
      | some c => if ccMatch ic cc c then k (pos + 1) caps else none
      | none => none
    | .dot =>
      match s.get? pos with
      | some c => if c = '\n' then none else k (pos + 1) caps
      | none => none
    | .cat a b =>
      mrun s ic fuel a pos caps (fun p c => mrun s ic fuel b p c k)
    | .alt a b =>
      (mrun s ic fuel a pos caps k).orElse (fun _ => mrun s ic fuel b pos caps k)
    | .star r =>
      (mrun s ic fuel r pos caps (fun p c =>
        if pos < p then mrun s ic fuel (.star r) p c k else none)).orElse
        (fun _ => k pos caps)
    | .starL r =>
      (k pos caps).orElse (fun _ =>
        mrun s ic fuel r pos caps (fun p c =>
          if pos < p then mrun s ic fuel (.starL r) p c k else none))
    | .grp n r =>
      mrun s ic fuel r pos caps (fun p c => k p ((n, pos, p) :: c))
    | .look r =>
      match mrun s ic fuel r pos caps (fun p c => some (p, c)) with
      | some _ => k pos caps
      | none => none
    | .lookb cc =>
      match pos with
      | 0 => none
      | q + 1 =>
        match s.get? q with
        | some c => if ccMatch ic cc c then k pos caps else none
        | none => none
    | .wb => if atWb s pos then k pos caps else none
    | .eol => if atEol s pos then k pos caps else none

/-- Syntactic size of a pattern, used to pick a sufficient fuel. -/
def rxSize : Rx → Nat
  | .eps => 1
  | .cls _ => 1
  | .dot => 1
  | .cat a b => rxSize a + rxSize b + 1
  | .alt a b => rxSize a + rxSize b + 1
  | .star r => rxSize r + 1
  | .starL r => rxSize r + 1
  | .grp _ r => rxSize r + 1
  | .look r => rxSize r + 1
  | .lookb _ => 1
  | .wb => 1
  | .eol => 1

/-- Try to match `rx` starting exactly at `pos` (Python's scan step);
returns the match end and the captures.  The fuel bounds the depth of the
nested-call chain; one pattern-constructor frame per step and one frame
per quantifier iteration are opened, every iteration consumes at least
one character, so `(length+2)·(size+2)` frames can never be exhausted. -/
def matchAt (s : Str) (ic : Bool) (rx : Rx) (pos : Nat) : Option (Nat × Caps) :=
  mrun s ic ((s.length + 2) * (rxSize rx + 2)) rx pos [] (fun p c => some (p, c))

structure MRes where
  ms : Nat
  me : Nat
  caps : Caps
deriving DecidableEq

/-- `re.finditer`: scan left to right; a successful match resumes at its
end (a zero-width match advances by one position). -/
def finditerAux (s : Str) (ic : Bool) (rx : Rx) : Nat → Nat → List MRes
  | 0, _ => []
  | fuel + 1, pos =>
    if pos > s.length then []
    else
      match matchAt s ic rx pos with
      | some (e, caps) =>
        ⟨pos, e, caps⟩ :: finditerAux s ic rx fuel (if pos < e then e else pos + 1)
      | none => finditerAux s ic rx fuel (pos + 1)

def finditer (s : Str) (ic : Bool) (rx : Rx) : List MRes :=
  finditerAux s ic rx (s.length + 2) 0

/-- `re.search`: the first match, if any. -/
def research (s : Str) (ic : Bool) (rx : Rx) : Option MRes :=
  (finditer s ic rx).head?

/-- `re.match`: anchored at position 0. -/
def rematch (s : Str) (ic : Bool) (rx : Rx) : Option (Nat × Caps) :=
  matchAt s ic rx 0

/-- One piece of a `re.sub` replacement template: literal text or a group
backreference `\n`. -/
inductive RepItem where
  | lit (t : Str)
  | grp (n : Nat)

def applyRep (s : Str) (m : MRes) (rep : List RepItem) : Str :=
  rep.flatMap fun
    | .lit t => t
    | .grp n =>
      match getCap m.caps n with
      | some (a, b) => pySlice s a b
      | none => []

def subAllAux (s : Str) (rep : List RepItem) : Nat → List MRes → Str
  | prev, [] => s.drop prev
  | prev, m :: rest => pySlice s prev m.ms ++ applyRep s m rep ++ subAllAux s rep m.me rest

/-- `re.sub(pattern, repl, s)`: replace every (non-overlapping, leftmost)
match by the instantiated template. -/
def subAll (s : Str) (ic : Bool) (rx : Rx) (rep : List RepItem) : Str :=
  subAllAux s rep 0 (finditer s ic rx)

/-! #### Pattern construction helpers -/

def rxc (c : Char) : Rx := .cls ⟨false, [.chr c]⟩

/-- Literal string. -/
def rxlit (t : String) : Rx := t.data.foldr (fun c r => .cat (rxc c) r) .eps

def rxseq (l : List Rx) : Rx := l.foldr .cat .eps

def rxalts : List Rx → Rx
  | [] => .eps
  | [r] => r
  | r :: rest => .alt r (rxalts rest)

/-- Greedy `r?`. -/
def rxopt (r : Rx) : Rx := .alt r .eps

/-- Greedy `r+`. -/
def rxplus (r : Rx) : Rx := .cat r (.star r)

/-- Lazy `r+?`. -/
def rxplusL (r : Rx) : Rx := .cat r (.starL r)

/-- Exactly `n` copies: `r{n}`. -/
def rxexact (r : Rx) (n : Nat) : Rx := rxseq (List.replicate n r)

/-- Greedy `r{0,k}`. -/
def rxupto (r : Rx) : Nat → Rx
  | 0 => .eps
  | k + 1 => .alt (.cat r (rxupto r k)) .eps

/-- Greedy `r{m,n}`. -/
def rxrep (r : Rx) (m n : Nat) : Rx := .cat (rxexact r m) (rxupto r (n - m))

/-- Greedy `r{m,}`. -/
def rxatleast (r : Rx) (m : Nat) : Rx := .cat (rxexact r m) (.star r)

def ccUpper : CC := ⟨false, [.range 'A' 'Z']⟩
def ccLower : CC := ⟨false, [.range 'a' 'z']⟩
def ccDigit : CC := ⟨false, [.digit]⟩
def ccSpace : CC := ⟨false, [.space]⟩
def ccLetter : CC := ⟨false, [.range 'A' 'Z', .range 'a' 'z']⟩
def rxU : Rx := .cls ccUpper
def rxl : Rx := .cls ccLower
def rxD : Rx := .cls ccDigit
def rxS : Rx := .cls ccSpace

/-! ### PII detector (src/pii_detection/pii_detector.py)

Each Python regex is transcribed literally into an `Rx`; its source
string is kept alongside because the confidence heuristics test for
substrings of the pattern source (e.g. `'Phone:' in pattern`). -/

structure PatSpec where
  src : String
  rx : Rx
  ngroups : Nat

structure PIIMatch where
  text : Str
  pii_type : String
  confidence : Rat
  start_pos : Nat
  end_pos : Nat
deriving DecidableEq

/-- `[A-Z][a-z]+\s+[A-Z][a-z]+` -/
def nameCore : Rx := rxseq [rxU, rxplus rxl, rxplus rxS, rxU, rxplus rxl]

def namePat1 : PatSpec :=
  { src := "\\b(?:Mr\\.?|Mrs\\.?|Ms\\.?|Dr\\.?|Doctor)\\s+([A-Z][a-z]+\\s+[A-Z][a-z]+)\\b"
    rx := rxseq [.wb,
      rxalts [.cat (rxlit "Mr") (rxopt (rxc '.')), .cat (rxlit "Mrs") (rxopt (rxc '.')),
              .cat (rxlit "Ms") (rxopt (rxc '.')), .cat (rxlit "Dr") (rxopt (rxc '.')),
              rxlit "Doctor"],
      rxplus rxS, .grp 1 nameCore, .wb]
    ngroups := 1 }

def namePat2 : PatSpec :=
  { src := "\\bPatient:\\s*([A-Z][a-z]+\\s+[A-Z][a-z]+)\\b"
    rx := rxseq [.wb, rxlit "Patient:", .star rxS, .grp 1 nameCore, .wb]
    ngroups := 1 }

def namePat3 : PatSpec :=
  { src := "\\bName:\\s*([A-Z][a-z]+\\s+[A-Z][a-z]+)\\b"
    rx := rxseq [.wb, rxlit "Name:", .star rxS, .grp 1 nameCore, .wb]
    ngroups := 1 }

def namePat4 : PatSpec :=
  { src := "\\b([A-Z][a-z]+\\s+[A-Z][a-z]+)\\b(?=\\s*(?:DOB|Age|Born))"
    rx := rxseq [.wb, .grp 1 nameCore, .wb,
      .look (rxseq [.star rxS, rxalts [rxlit "DOB", rxlit "Age", rxlit "Born"]])]
    ngroups := 1 }

def namePat5 : PatSpec :=
  { src := "\\b([A-Z][a-z]\x7b2,\x7d\\s+[A-Z][a-z]\x7b2,\x7d)\\b"
    rx := rxseq [.wb,
      .grp 1 (rxseq [rxU, rxatleast rxl 2, rxplus rxS, rxU, rxatleast rxl 2]), .wb]
    ngroups := 1 }

def namePatterns : List PatSpec := [namePat1, namePat2, namePat3, namePat4, namePat5]

/-- `(?:Street|St|Avenue|Ave|Road|Rd|Lane|Ln|Drive|Dr|Boulevard|Blvd)` -/
def streetAlt : Rx :=
  rxalts [rxlit "Street", rxlit "St", rxlit "Avenue", rxlit "Ave", rxlit "Road",
          rxlit "Rd", rxlit "Lane", rxlit "Ln", rxlit "Drive", rxlit "Dr",
          rxlit "Boulevard", rxlit "Blvd"]

/-- `\b\d+\s+[A-Z][a-z]+(?:\s+[A-Z][a-z]+)*\s+` -/
def addrHead : Rx :=
  rxseq [.wb, rxplus rxD, rxplus rxS, rxU, rxplus rxl,
    .star (rxseq [rxplus rxS, rxU, rxplus rxl]), rxplus rxS]

def addrPat1 : PatSpec :=
  { src := "\\b\\d+\\s+[A-Z][a-z]+(?:\\s+[A-Z][a-z]+)*\\s+(?:Street|St|Avenue|Ave|Road|Rd|Lane|Ln|Drive|Dr|Boulevard|Blvd)\\b"
    rx := rxseq [addrHead, streetAlt, .wb]
    ngroups := 0 }

def addrPat2 : PatSpec :=
  { src := "\\b\\d+\\s+[A-Z][a-z]+(?:\\s+[A-Z][a-z]+)*\\s+(?:Street|St|Avenue|Ave|Road|Rd|Lane|Ln|Drive|Dr|Boulevard|Blvd)(?:\\s*,?\\s*[A-Z][a-z]+\\s*,?\\s*[A-Z]\x7b2\x7d\\s*\\d\x7b5\x7d(?:-\\d\x7b4\x7d)?)?"
    rx := rxseq [addrHead, streetAlt,
      rxopt (rxseq [.star rxS, rxopt (rxc ','), .star rxS, rxU, rxplus rxl,
        .star rxS, rxopt (rxc ','), .star rxS, rxexact rxU 2, .star rxS,
        rxexact rxD 5, rxopt (rxseq [rxc '-', rxexact rxD 4])])]
    ngroups := 0 }

def addrPat3 : PatSpec :=
  { src := "Address:\\s*(.+?)(?:\\n|$)"
    rx := rxseq [rxlit "Address:", .star rxS, .grp 1 (rxplusL .dot),
      rxalts [rxc '\n', .eol]]
    ngroups := 1 }

def addrPat4 : PatSpec :=
  { src := "\\b[A-Z][a-z]+\\s*,\\s*[A-Z]\x7b2\x7d\\s+\\d\x7b5\x7d(?:-\\d\x7b4\x7d)?\\b"
    rx := rxseq [.wb, rxU, rxplus rxl, .star rxS, rxc ',', .star rxS,
      rxexact rxU 2, rxplus rxS, rxexact rxD 5,
      rxopt (rxseq [rxc '-', rxexact rxD 4]), .wb]
    ngroups := 0 }

def addressPatterns : List PatSpec := [addrPat1, addrPat2, addrPat3, addrPat4]

/-- `[-.\s]` -/
def ccDashDotSp : CC := ⟨false, [.chr '-', .chr '.', .space]⟩

/-- `[0-9\-\.\(\)\s]` -/
def ccPhoneChars : CC :=
  ⟨false, [.range '0' '9', .chr '-', .chr '.', .chr '(', .chr ')', .space]⟩

def phonePat1 : PatSpec :=
  { src := "\\b(?:\\+?1[-.\\s]?)?\\(?([0-9]\x7b3\x7d)\\)?[-.\\s]?([0-9]\x7b3\x7d)[-.\\s]?([0-9]\x7b4\x7d)\\b"
    rx := rxseq [.wb, rxopt (rxseq [rxopt (rxc '+'), rxc '1', rxopt (.cls ccDashDotSp)]),
      rxopt (rxc '('), .grp 1 (rxexact rxD 3), rxopt (rxc ')'),
      rxopt (.cls ccDashDotSp), .grp 2 (rxexact rxD 3),
      rxopt (.cls ccDashDotSp), .grp 3 (rxexact rxD 4), .wb]
    ngroups := 3 }

def phonePat2 : PatSpec :=
  { src := "\\bPhone:\\s*([0-9\\-\\.\\(\\)\\s]+)\\b"
    rx := rxseq [.wb, rxlit "Phone:", .star rxS, .grp 1 (rxplus (.cls ccPhoneChars)), .wb]
    ngroups := 1 }

def phonePat3 : PatSpec :=
  { src := "\\bTel:\\s*([0-9\\-\\.\\(\\)\\s]+)\\b"
    rx := rxseq [.wb, rxlit "Tel:", .star rxS, .grp 1 (rxplus (.cls ccPhoneChars)), .wb]
    ngroups := 1 }

def phonePat4 : PatSpec :=
  { src := "\\bCell:\\s*([0-9\\-\\.\\(\\)\\s]+)\\b"
    rx := rxseq [.wb, rxlit "Cell:", .star rxS, .grp 1 (rxplus (.cls ccPhoneChars)), .wb]
    ngroups := 1 }

def phonePatterns : List PatSpec := [phonePat1, phonePat2, phonePat3, phonePat4]

/-- `[A-Z0-9\-]` -/
def ccUDD : CC := ⟨false, [.range 'A' 'Z', .range '0' '9', .chr '-']⟩

def medPat1 : PatSpec :=
  { src := "\\b(?:MRN|Medical Record|Patient ID|Chart):\\s*([A-Z0-9\\-]+)\\b"
    rx := rxseq [.wb,
      rxalts [rxlit "MRN", rxlit "Medical Record", rxlit "Patient ID", rxlit "Chart"],
      rxc ':', .star rxS, .grp 1 (rxplus (.cls ccUDD)), .wb]
    ngroups := 1 }

def medPat2 : PatSpec :=
  { src := "\\b(?:MR|MRN)#?\\s*([A-Z0-9\\-]\x7b6,12\x7d)\\b"
    rx := rxseq [.wb, rxalts [rxlit "MR", rxlit "MRN"], rxopt (rxc '#'), .star rxS,
      .grp 1 (rxrep (.cls ccUDD) 6 12), .wb]
    ngroups := 1 }

def medPat3 : PatSpec :=
  { src := "\\bPatient\\s+ID:\\s*([A-Z0-9\\-]+)\\b"
    rx := rxseq [.wb, rxlit "Patient", rxplus rxS, rxlit "ID:", .star rxS,
      .grp 1 (rxplus (.cls ccUDD)), .wb]
    ngroups := 1 }

def medPat4 : PatSpec :=
  { src := "\\bChart\\s+#:\\s*([A-Z0-9\\-]+)\\b"
    rx := rxseq [.wb, rxlit "Chart", rxplus rxS, rxlit "#:", .star rxS,
      .grp 1 (rxplus (.cls ccUDD)), .wb]
    ngroups := 1 }

def medicalIdPatterns : List PatSpec := [medPat1, medPat2, medPat3, medPat4]

/-- `[-\s]` -/
def ccDashSp : CC := ⟨false, [.chr '-', .space]⟩

/-- `\d{3}[-\s]?\d{2}[-\s]?\d{4}` -/
def ssnCore : Rx :=
  rxseq [rxexact rxD 3, rxopt (.cls ccDashSp), rxexact rxD 2,
    rxopt (.cls ccDashSp), rxexact rxD 4]

def ssnPat1 : PatSpec :=
  { src := "\\b\\d\x7b3\x7d-\\d\x7b2\x7d-\\d\x7b4\x7d\\b"
    rx := rxseq [.wb, rxexact rxD 3, rxc '-', rxexact rxD 2, rxc '-', rxexact rxD 4, .wb]
    ngroups := 0 }

def ssnPat2 : PatSpec :=
  { src := "\\b\\d\x7b3\x7d\\s\\d\x7b2\x7d\\s\\d\x7b4\x7d\\b"
    rx := rxseq [.wb, rxexact rxD 3, rxS, rxexact rxD 2, rxS, rxexact rxD 4, .wb]
    ngroups := 0 }

def ssnPat3 : PatSpec :=
  { src := "\\bSSN:\\s*(\\d\x7b3\x7d[-\\s]?\\d\x7b2\x7d[-\\s]?\\d\x7b4\x7d)\\b"
    rx := rxseq [.wb, rxlit "SSN:", .star rxS, .grp 1 ssnCore, .wb]
    ngroups := 1 }

def ssnPat4 : PatSpec :=
  { src := "\\bSocial Security:\\s*(\\d\x7b3\x7d[-\\s]?\\d\x7b2\x7d[-\\s]?\\d\x7b4\x7d)\\b"
    rx := rxseq [.wb, rxlit "Social Security:", .star rxS, .grp 1 ssnCore, .wb]
    ngroups := 1 }

def ssnPatterns : List PatSpec := [ssnPat1, ssnPat2, ssnPat3, ssnPat4]

/-! #### Validators and confidence heuristics -/

/-- `re.sub(r'\D', '', s)`: keep only digits. -/
def digitsOnly (s : Str) : Str := s.filter isDigitC

/-- `_is_valid_phone_number`: 10 or 11 digits. -/
def isValidPhoneNumber (s : Str) : Bool :=
  (digitsOnly s).length = 10 || (digitsOnly s).length = 11

/-- `_is_valid_ssn`: exactly 9 digits; area code not `000`, `666`, or `9xx`. -/
def isValidSSN (s : Str) : Bool :=
  let d := digitsOnly s
  if d.length ≠ 9 then false
  else
    let area := d.take 3
    if area = strL "000" || area = strL "666" || area.head? = some '9' then false
    else true

/-- The SSN rule as the spec states it (used only to compare against
`_is_valid_ssn`): digit-only length 9; area not `000`/`666`/`9xx`; group
(digits 4-5) not `00`; serial (digits 6-9) not `0000`. -/
def ssnValidClaim (s : Str) : Bool :=
  let d := digitsOnly s
  d.length = 9 &&
    !(d.take 3 = strL "000") && !(d.take 3 = strL "666") &&
    !((d.take 3).head? = some '9') &&
    !(pySlice d 3 5 = strL "00") && !(pySlice d 5 9 = strL "0000")

/-- `_calculate_name_confidence`: base 0.5, plus 0.3 for an explicit
label in the pattern source, plus 0.2 for a medical keyword in the
context window `full_text[max(0, position-50):position+50]` (the Nat
subtraction is that max), plus 0.1 for a two-token name; capped at 1. -/
def calcNameConfidence (nameText : Str) (patternSrc : String) (fullText : Str)
    (position : Nat) : Rat :=
  ratMin ((5 : Rat)/10 +
    (if ["Mr|Mrs|Ms|Dr", "Name:", "Patient:"].any
        (fun ind => strIn (strL ind) (strL patternSrc)) then 3/10 else 0) +
    (if ["patient", "doctor", "medical", "chart", "record", "dob", "age"].any
        (fun kw => strIn (strL kw) (pyLower (pySlice fullText (position - 50) (position + 50))))
     then 2/10 else 0) +
    (if 2 ≤ (pySplit nameText).length then 1/10 else 0)) 1

/-- `[A-Z]{2}\s+\d{5}` (searched case-sensitively). -/
def stateZipRx : Rx := rxseq [rxexact rxU 2, rxplus rxS, rxexact rxD 5]

/-- `_calculate_address_confidence` (its `pattern` argument is unused by
the source as well): base 0.6, plus 0.2 for a digit, plus 0.2 for a
state/ZIP shape (both searched case-sensitively); capped at 1. -/
def calcAddressConfidence (addressText : Str) (patternSrc : String) : Rat :=
  ratMin ((6 : Rat)/10 +
    (if (research addressText false (rxplus rxD)).isSome then 2/10 else 0) +
    (if (research addressText false stateZipRx).isSome then 2/10 else 0)) 1

/-- `\(\d{3}\)\s?\d{3}-\d{4}` (used with `re.match`). -/
def phoneFormatRx : Rx :=
  rxseq [rxc '(', rxexact rxD 3, rxc ')', rxopt rxS, rxexact rxD 3, rxc '-',
    rxexact rxD 4]

/-- `_calculate_phone_confidence`: base 0.7, plus 0.2 for a `Phone:` or
`Tel:` label in the pattern source, plus 0.1 for `(ddd) ddd-dddd` shape;
capped at 1. -/
def calcPhoneConfidence (phoneText : Str) (patternSrc : String) : Rat :=
  ratMin ((7 : Rat)/10 +
    (if strIn (strL "Phone:") (strL patternSrc) || strIn (strL "Tel:") (strL patternSrc)
     then 2/10 else 0) +
    (if (rematch phoneText false phoneFormatRx).isSome then 1/10 else 0)) 1

/-- `_calculate_medical_id_confidence` (the match text is unused by the
source as well): base 0.8 plus 0.1 for an explicit label; capped at 1. -/
def calcMedicalIdConfidence (medIdText : Str) (patternSrc : String) : Rat :=
  ratMin ((8 : Rat)/10 +
    (if ["MRN:", "Medical Record", "Patient ID"].any
        (fun lab => strIn (strL lab) (strL patternSrc)) then 1/10 else 0)) 1

/-- `_calculate_ssn_confidence` (the match text is unused by the source
as well): base 0.9 plus 0.1 for an explicit label; capped at 1. -/
def calcSSNConfidence (ssnText : Str) (patternSrc : String) : Rat :=
  ratMin ((9 : Rat)/10 +
    (if strIn (strL "SSN:") (strL patternSrc) ||
        strIn (strL "Social Security") (strL patternSrc) then 1/10 else 0)) 1

/-! #### Deduplication and the detectors -/

/-- The overlap test of `_deduplicate_matches`:
`match.start_pos < existing.end_pos and match.end_pos > existing.start_pos`. -/
def overlapB (m ex : PIIMatch) : Bool :=
  decide (m.start_pos < ex.end_pos) && decide (ex.start_pos < m.end_pos)

def leStart (a b : PIIMatch) : Prop := a.start_pos ≤ b.start_pos

instance : DecidableRel leStart := fun a b => Nat.decLe _ _

/-- Python `list.sort(key=lambda x: x.start_pos)` is a stable sort by
`start_pos`; `insertionSort` with `leStart` is that stable sort. -/
def sortByStart (l : List PIIMatch) : List PIIMatch := List.insertionSort leStart l

/-- The body of the `for match in matches` loop of `_deduplicate_matches`:
scan the accepted list for the first overlapping entry; replace it (removing
it and appending the candidate) when the candidate's confidence is strictly
higher, drop the candidate otherwise; append when nothing overlaps. -/
def dedupStep (acc : List PIIMatch) (m : PIIMatch) : List PIIMatch :=
  match acc.find? (fun ex => overlapB m ex) with
  | some ex => if ex.confidence < m.confidence then acc.erase ex ++ [m] else acc
  | none => acc ++ [m]

/-- `_deduplicate_matches` (its `matches` parameter is `ms` here). -/
def deduplicateMatches (ms : List PIIMatch) : List PIIMatch :=
  if ms = [] then ms
  else (sortByStart ms).foldl dedupStep []

/-- Span selection shared by the detectors: the first capture group when
the pattern has groups, else the whole match.  (For every pattern of the
repository with `ngroups > 0`, group 1 participates in every match, so the
`none` fallback is unreachable.) -/
def groupSpan (p : PatSpec) (m : MRes) : Nat × Nat :=
  if p.ngroups > 0 then
    match getCap m.caps 1 with
    | some ab => ab
    | none => (m.ms, m.me)
  else (m.ms, m.me)

/-- Span selection of `detect_names`: the `if match.groups() and
match.group(1)` guard also requires the group text to be non-empty. -/
def nameSpanOf (p : PatSpec) (m : MRes) : Nat × Nat :=
  if p.ngroups > 0 then
    match getCap m.caps 1 with
    | some (a, b) => if a < b then (a, b) else (m.ms, m.me)
    | none => (m.ms, m.me)
  else (m.ms, m.me)

/-- The loop body of `detect_names`: matches whose (stripped) text is
shorter than 2 are skipped. -/
def nameMatchOf (text : Str) (p : PatSpec) (m : MRes) : Option PIIMatch :=
  let sp := nameSpanOf p m
  let nameText := pyStrip (pySlice text sp.1 sp.2)
  if nameText.length < 2 then none
  else some ⟨nameText, "name", calcNameConfidence nameText p.src text sp.1, sp.1, sp.2⟩

/-- `detect_names`. -/
def detectNames (text : Str) : List PIIMatch :=
  deduplicateMatches <| namePatterns.flatMap fun p =>
    (finditer text true p.rx).filterMap (nameMatchOf text p)

/-- The loop body of `detect_addresses`. -/
def addressMatchOf (text : Str) (p : PatSpec) (m : MRes) : PIIMatch :=
  let sp := groupSpan p m
  let addressText := pyStrip (pySlice text sp.1 sp.2)
  ⟨addressText, "address", calcAddressConfidence addressText p.src, sp.1, sp.2⟩

/-- `detect_addresses`. -/
def detectAddresses (text : Str) : List PIIMatch :=
  deduplicateMatches <| addressPatterns.flatMap fun p =>
    (finditer text true p.rx).map (addressMatchOf text p)

/-- Span selection of `detect_phone_numbers`: a pattern with several
groups uses the whole match, one with a single group uses that group. -/
def phoneSpanOf (p : PatSpec) (m : MRes) : Nat × Nat :=
  if p.ngroups = 1 then
    match getCap m.caps 1 with
    | some ab => ab
    | none => (m.ms, m.me)
  else (m.ms, m.me)

/-- The loop body of `detect_phone_numbers`: candidates failing
`_is_valid_phone_number` are dropped. -/
def phoneMatchOf (text : Str) (p : PatSpec) (m : MRes) : Option PIIMatch :=
  let sp := phoneSpanOf p m
  let phoneText := pyStrip (pySlice text sp.1 sp.2)
  if isValidPhoneNumber phoneText then
    some ⟨phoneText, "phone", calcPhoneConfidence phoneText p.src, sp.1, sp.2⟩
  else none

/-- `detect_phone_numbers`. -/
def detectPhoneNumbers (text : Str) : List PIIMatch :=
  deduplicateMatches <| phonePatterns.flatMap fun p =>
    (finditer text true p.rx).filterMap (phoneMatchOf text p)

/-- The loop body of `detect_medical_ids`. -/
def medicalIdMatchOf (text : Str) (p : PatSpec) (m : MRes) : PIIMatch :=
  let sp := groupSpan p m
  let medIdText := pyStrip (pySlice text sp.1 sp.2)
  ⟨medIdText, "medical_id", calcMedicalIdConfidence medIdText p.src, sp.1, sp.2⟩

/-- `detect_medical_ids`. -/
def detectMedicalIds (text : Str) : List PIIMatch :=
  deduplicateMatches <| medicalIdPatterns.flatMap fun p =>
    (finditer text true p.rx).map (medicalIdMatchOf text p)

/-- The loop body of `detect_ssns`: candidates failing `_is_valid_ssn`
are dropped. -/
def ssnMatchOf (text : Str) (p : PatSpec) (m : MRes) : Option PIIMatch :=
  let sp := groupSpan p m
  let ssnText := pyStrip (pySlice text sp.1 sp.2)
  if isValidSSN ssnText then
    some ⟨ssnText, "ssn", calcSSNConfidence ssnText p.src, sp.1, sp.2⟩
  else none

/-- `detect_ssns` (SSN patterns run without `re.IGNORECASE`). -/
def detectSSNs (text : Str) : List PIIMatch :=
  deduplicateMatches <| ssnPatterns.flatMap fun p =>
    (finditer text false p.rx).filterMap (ssnMatchOf text p)

/-- `detect_all_pii`: concatenate the five categories' (individually
deduplicated) results and sort by `start_pos`. -/
def detectAllPii (text : Str) : List PIIMatch :=
  sortByStart (detectNames text ++ detectAddresses text ++ detectPhoneNumbers text ++
    detectMedicalIds text ++ detectSSNs text)

/-! ### Text cleaner (src/utils/text_cleaner.py) -/

/-- Fuel-indexed worker for `collapseWs` (structural recursion on the
fuel; `fuel = length + 1` never runs out). -/
def collapseWsAux : Nat → Str → Str
  | 0, _ => []
  | _, [] => []
  | fuel + 1, c :: cs =>
    if pyIsSpace c then ' ' :: collapseWsAux fuel (cs.dropWhile pyIsSpace)
    else c :: collapseWsAux fuel cs

/-- `re.sub(r'\s+', ' ', s)`: replace every maximal whitespace run by a
single space. -/
def collapseWs (s : Str) : Str := collapseWsAux (s.length + 1) s

/-- `normalize_whitespace`. -/
def normalizeWhitespace (s : Str) : Str :=
  if s.isEmpty then [] else pyStrip (collapseWs s)

/-- Two adjacent characters are not both whitespace. -/
def nonAdjSp (a b : Char) : Prop := ¬(pyIsSpace a = true ∧ pyIsSpace b = true)

/-- A string with no two adjacent whitespace characters in which every
whitespace character is a plain space: the shape `normalize_whitespace`
produces. -/
def goodStr (s : Str) : Prop :=
  List.Chain' nonAdjSp s ∧ ∀ c ∈ s, pyIsSpace c = true → c = ' ' 

/-- `self.ocr_corrections`, in insertion (= application) order.  None of
these substitutions uses `re.IGNORECASE`. -/
def ocrCorrections : List (Rx × Str) :=
  [ (rxseq [.wb, rxc '0', .look (.cls ccLetter)], strL "O"),
    (rxseq [.lookb ccLetter, rxc '0', .wb], strL "o"),
    (rxseq [.wb, rxc '1', .look (.cls ccLetter)], strL "I"),
    (rxseq [.lookb ccLetter, rxc '1', .look (.cls ccLetter)], strL "l"),
    (rxseq [.wb, rxc '5', .look (.cls ccLetter)], strL "S"),
    (rxseq [.lookb ccLetter, rxc '5', .look (.cls ccLetter)], strL "s"),
    (rxc '|', strL "I"),
    (rxseq [.lookb ccLower, rxlit "rn", .look rxl], strL "m"),
    (rxlit "vv", strL "w"),
    (rxseq [.wb, rxlit "mg", .wb], strL "mg"),
    (rxseq [.wb, rxlit "MG", .wb], strL "mg"),
    (rxseq [.wb, rxlit "ml", .wb], strL "ml"),
    (rxseq [.wb, rxlit "ML", .wb], strL "ml"),
    (rxseq [.wb, rxlit "tab", .wb], strL "tab"),
    (rxseq [.wb, rxlit "TAB", .wb], strL "tab") ]

/-- `fix_common_ocr_errors`. -/
def fixCommonOcrErrors (s : Str) : Str :=
  if s.isEmpty then []
  else ocrCorrections.foldl (fun t pr => subAll t false pr.1 [.lit pr.2]) s

/-- The `medical_patterns` of `clean_medical_text` with their group
templates, in insertion order; all applied with `re.IGNORECASE`. -/
def medicalPatterns : List (Rx × List RepItem) :=
  [ (rxseq [.wb, .grp 1 (rxplus rxD), .star rxS, rxlit "mg", .wb],
      [.grp 1, .lit (strL "mg")]),
    (rxseq [.wb, .grp 1 (rxplus rxD), .star rxS, rxlit "ml", .wb],
      [.grp 1, .lit (strL "ml")]),
    (rxseq [.wb, .grp 1 (rxplus rxD), .star rxS, rxlit "tab", .wb],
      [.grp 1, .lit (strL " tab")]),
    (rxseq [.wb, .grp 1 (rxplus rxD), .star rxS, rxc 'x', .star rxS,
        .grp 2 (rxplus rxD), .wb],
      [.grp 1, .lit (strL "x"), .grp 2]),
    (rxseq [.wb, .grp 1 (rxplus rxD), rxc '/', .grp 2 (rxplus rxD), .wb],
      [.grp 1, .lit (strL "/"), .grp 2]),
    (rxseq [.wb, .grp 1 (rxrep rxD 1 2), .star rxS, rxc ':', .star rxS,
        .grp 2 (rxexact rxD 2), .star rxS, .grp 3 (rxalts [rxlit "am", rxlit "pm"]), .wb],
      [.grp 1, .lit (strL ":"), .grp 2, .grp 3]),
    (rxseq [.wb, .grp 1 (rxrep rxD 1 2), .star rxS, rxc ':', .star rxS,
        .grp 2 (rxexact rxD 2), .wb],
      [.grp 1, .lit (strL ":"), .grp 2]),
    (rxseq [.wb, .grp 1 (rxrep rxD 1 2), rxplus rxS,
        .grp 2 (rxalts [rxlit "am", rxlit "pm"]), .wb],
      [.grp 1, .grp 2]) ]

/-- `clean_medical_text`. -/
def cleanMedicalText (s : Str) : Str :=
  if s.isEmpty then []
  else medicalPatterns.foldl (fun t pr => subAll t true pr.1 pr.2) s

/-- The `artifact_patterns` of `remove_artifacts` (no `re.IGNORECASE`). -/
def artifactPatterns : List Rx :=
  [ rxseq [rxS, .cls ⟨true, [.word, .space]⟩, rxS],
    rxseq [.wb, .cls ccLetter, rxplus rxS, .cls ccLetter, rxplus rxS, .cls ccLetter, .wb],
    rxatleast (rxc '_') 2,
    rxatleast (rxc '-') 3,
    rxatleast (rxc '.') 3 ]

/-- `remove_artifacts`: each artifact pattern is replaced by a space, then
`re.sub(r'\s+', ' ', cleaned).strip()`. -/
def removeArtifacts (s : Str) : Str :=
  if s.isEmpty then []
  else
    let t := artifactPatterns.foldl (fun t p => subAll t false p [.lit (strL " ")]) s
    pyStrip (collapseWs t)

/-- The cleaned-text component of `clean_text`: the five passes in order
(whitespace normalization, OCR-error correction, medical cleaning,
artifact removal, final whitespace normalization). -/
def cleanTextStr (t : Str) : Str :=
  if t.isEmpty then []
  else
    normalizeWhitespace (removeArtifacts (cleanMedicalText (fixCommonOcrErrors
      (normalizeWhitespace t))))

/-- `self.medical_terms` (a set; only membership counts are used). -/
def medicalTerms : List String :=
  [ "paracetamol", "ibuprofen", "aspirin", "amoxicillin", "metformin",
    "atorvastatin", "omeprazole", "simvastatin", "ramipril", "amlodipine",
    "levothyroxine", "lansoprazole", "bendroflumethiazide", "salbutamol",
    "prednisolone", "warfarin", "furosemide", "bisoprolol", "clopidogrel",
    "dose", "dosage", "tablet", "capsule", "syrup", "injection", "cream",
    "ointment", "drops", "spray", "inhaler", "patch", "suppository",
    "morning", "evening", "night", "daily", "twice", "thrice", "weekly",
    "monthly", "before", "after", "meals", "food", "empty", "stomach",
    "patient", "doctor", "physician", "nurse", "clinic", "hospital",
    "prescription", "medication", "treatment", "therapy", "diagnosis" ]

/-- The `structure_patterns` of `assess_text_quality`
(`\d+mg`, `\d+ml`, `\d+tab`, `\d{1,2}:\d{2}`, `\d{1,2}/\d{1,2}`),
searched with `re.IGNORECASE`. -/
def structPatterns : List Rx :=
  [ rxseq [rxplus rxD, rxlit "mg"],
    rxseq [rxplus rxD, rxlit "ml"],
    rxseq [rxplus rxD, rxlit "tab"],
    rxseq [rxrep rxD 1 2, rxc ':', rxexact rxD 2],
    rxseq [rxrep rxD 1 2, rxc '/', rxrep rxD 1 2] ]

/-- `word_retention = cleaned_words / original_words if original_words > 0 else 0`. -/
def wordRetentionOf (original cleaned : Str) : Rat :=
  if 0 < (pySplit original).length then
    ((pySplit cleaned).length : Rat) / ((pySplit original).length : Rat)
  else 0

/-- `char_reduction = 1 - len(cleaned)/len(original) if len(original) > 0 else 0`. -/
def charReductionOf (original cleaned : Str) : Rat :=
  if 0 < original.length then 1 - (cleaned.length : Rat) / (original.length : Rat)
  else 0

/-- `medical_terms_found`: how many fixed vocabulary terms occur in the
(lower-cased) cleaned text. -/
def medicalTermsFoundIn (cleaned : Str) : Nat :=
  (medicalTerms.filter (fun t => strIn (pyLower (strL t)) (pyLower cleaned))).length

/-- `medical_score = min(1.0, medical_terms_found / 10.0)`. -/
def medicalScoreOf (cleaned : Str) : Rat :=
  ratMin 1 ((medicalTermsFoundIn cleaned : Rat) / 10)

/-- How many of the structural regexes match somewhere in the cleaned text. -/
def structureMatchesIn (cleaned : Str) : Nat :=
  (structPatterns.filter (fun p => (research cleaned true p).isSome)).length

/-- `structure_score = min(1.0, structure_matches / len(structure_patterns))`. -/
def structureScoreOf (cleaned : Str) : Rat :=
  ratMin 1 ((structureMatchesIn cleaned : Rat) / (structPatterns.length : Rat))

/-- The weighted composite quality score of `assess_text_quality`. -/
def qualityScoreOf (original cleaned : Str) : Rat :=
  wordRetentionOf original cleaned * (3/10) +
    (1 - charReductionOf original cleaned) * (2/10) +
    medicalScoreOf cleaned * (3/10) + structureScoreOf cleaned * (2/10)

/-- `assess_text_quality`, returning the metrics dictionary as an
association list in construction order. -/
def assessTextQuality (original cleaned : Str) : List (String × Rat) :=
  if original.isEmpty && cleaned.isEmpty then [("quality_score", 0)]
  else if original.isEmpty then [("quality_score", 0)]
  else if cleaned.isEmpty then [("quality_score", 0)]
  else
    [ ("quality_score", qualityScoreOf original cleaned),
      ("word_retention", wordRetentionOf original cleaned),
      ("char_reduction", charReductionOf original cleaned),
      ("medical_score", medicalScoreOf cleaned),
      ("structure_score", structureScoreOf cleaned),
      ("medical_terms_found", (medicalTermsFoundIn cleaned : Rat)) ]

/-- Python `dict.get(key, default)` on the metrics dictionary. -/
def dictGet (d : List (String × Rat)) (k : String) (dflt : Rat) : Rat :=
  match d.find? (fun e => e.1 = k) with
  | some e => e.2
  | none => dflt

/-! ### OCR engine (src/ocr/ocr_engine.py)

The two OCR libraries are external collaborators; what each backend call
would compute is an explicit input (`tessRaw` / `easyRaw`), together with
the construction-time availability facts.  `_initialize_engines` probes
Tesseract but only logs the outcome (nothing is stored), and sets
`easyocr_reader` to `None` when EasyOCR fails to initialize: so only
EasyOCR availability is consulted anywhere in `extract_with_confidence`. -/

structure BackendRes where
  text : Str
  conf : Rat
deriving DecidableEq

structure OcrEnv where
  preferred : String
  tessAvailable : Bool
  easyAvailable : Bool
  tessRaw : BackendRes
  easyRaw : BackendRes

/-- `extract_text_tesseract`: a library-level exception (e.g. Tesseract
missing) is caught and becomes `("", 0.0)`. -/
def extractTextTesseract (e : OcrEnv) : BackendRes :=
  if e.tessAvailable then e.tessRaw else ⟨[], 0⟩

/-- `extract_text_easyocr`: returns `("", 0.0)` when `easyocr_reader` is
`None` (or on exception). -/
def extractTextEasyocr (e : OcrEnv) : BackendRes :=
  if e.easyAvailable then e.easyRaw else ⟨[], 0⟩

structure OcrMeta where
  enginesTried : List String
  primaryEngine : String
  fallbackUsed : Bool
  selectedEngine : Option String
deriving DecidableEq

/-- The character-substitution table of `_clean_extracted_text`, in
insertion order. -/
def ocrReplacements : List (Char × Char) :=
  [('|', 'I'), ('0', 'O'), ('5', 'S'), ('1', 'l')]

/-- `_clean_extracted_text`. -/
def cleanExtractedText (text : Str) : Str :=
  if text.isEmpty then []
  else
    let cleaned := collapseWs (pyStrip text)
    let correctedWords := (pySplit cleaned).map fun word =>
      if (!word.isEmpty && word.all fun c =>
            isLowerC c || isUpperC c || isDigitC c || c = '|') && 1 < word.length then
        ocrReplacements.foldl
          (fun w oldNew =>
            if w.any (fun c => c = oldNew.1) && !pyIsDigitStr w then
              w.map fun c => if c = oldNew.1 then oldNew.2 else c
            else w)
          word
      else word
    List.intercalate [' '] correctedWords

/-- `extract_with_confidence` (the timing and length fields of the
metadata dictionary are omitted). -/
def extractWithConfidence (e : OcrEnv) : Str × Rat × OcrMeta :=
  if e.preferred = "tesseract" then
    let pr := extractTextTesseract e
    if (pr.text.isEmpty || decide (pr.conf < (3 : Rat)/10)) && e.easyAvailable then
      let fb := extractTextEasyocr e
      if pr.conf < fb.conf then
        (cleanExtractedText fb.text, fb.conf,
          ⟨["tesseract", "easyocr"], e.preferred, true, some "easyocr"⟩)
      else
        (cleanExtractedText pr.text, pr.conf,
          ⟨["tesseract", "easyocr"], e.preferred, true, some "tesseract"⟩)
    else
      (cleanExtractedText pr.text, pr.conf,
        ⟨["tesseract"], e.preferred, false, some "tesseract"⟩)
  else
    let pr := extractTextEasyocr e
    if pr.text.isEmpty || decide (pr.conf < (3 : Rat)/10) then
      let fb := extractTextTesseract e
      if pr.conf < fb.conf then
        (cleanExtractedText fb.text, fb.conf,
          ⟨["easyocr", "tesseract"], e.preferred, true, some "tesseract"⟩)
      else
        (cleanExtractedText pr.text, pr.conf,
          ⟨["easyocr", "tesseract"], e.preferred, true, some "easyocr"⟩)
    else
      (cleanExtractedText pr.text, pr.conf,
        ⟨["easyocr"], e.preferred, false, some "easyocr"⟩)

/-- The result the preferred backend produces (the fallback policy's
"primary" result). -/
def primaryRes (e : OcrEnv) : BackendRes :=
  if e.preferred = "tesseract" then extractTextTesseract e else extractTextEasyocr e

/-- The other backend's result. -/
def secondaryRes (e : OcrEnv) : BackendRes :=
  if e.preferred = "tesseract" then extractTextEasyocr e else extractTextTesseract e

def primaryName (e : OcrEnv) : String :=
  if e.preferred = "tesseract" then "tesseract" else "easyocr"

def secondaryName (e : OcrEnv) : String :=
  if e.preferred = "tesseract" then "easyocr" else "tesseract"

/-- The low-quality test of the fallback policy: primary text empty or
primary confidence below 0.3. -/
def lowOrEmpty (e : OcrEnv) : Bool :=
  (primaryRes e).text.isEmpty || decide ((primaryRes e).conf < (3 : Rat)/10)

/-! ### Image preprocessor (src/preprocessing/image_preprocessor.py)

Images are opaque tokens (`Nat`); the cv2 filter calls are external
collaborators modelled as functions plus a success flag (the `try` blocks
of `enhance_contrast` / `reduce_noise` / `correct_orientation` return the
input image unchanged when the wrapped filter raises).  The Hough-based
angle estimate is the input `skewAngle` (0.0 when detection fails). -/

structure PreEnv where
  loadOk : Bool
  img : Nat
  contrastOk : Bool
  contrastFn : Nat → Nat
  noiseOk : Bool
  noiseFn : Nat → Nat
  skewAngle : Rat
  rotateOk : Bool
  rotateFn : Nat → Nat

/-- `enhance_contrast`: on internal failure, the unmodified image. -/
def enhanceContrast (e : PreEnv) (img : Nat) : Nat :=
  if e.contrastOk then e.contrastFn img else img

/-- `reduce_noise`: on internal failure, the unmodified image. -/
def reduceNoise (e : PreEnv) (img : Nat) : Nat :=
  if e.noiseOk then e.noiseFn img else img

/-- `correct_orientation` (it re-runs skew detection and rotates only
above the 0.5-degree threshold; on internal failure, the input image). -/
def correctOrientation (e : PreEnv) (img : Nat) : Nat :=
  if e.rotateOk then (if (1 : Rat)/2 < ratAbs e.skewAngle then e.rotateFn img else img)
  else img

structure PreMeta where
  preprocessing_steps : List String
  skew_corrected : Bool
  contrast_enhanced : Bool
  noise_reduced : Bool
  skew_angle : Option Rat
deriving DecidableEq

/-- `preprocess`: `none` models the re-raised load failure.  Note the
step names are appended right after each call, with no success check. -/
def preprocessModel (e : PreEnv) : Option (Nat × PreMeta) :=
  if !e.loadOk then none
  else
    let i1 := enhanceContrast e e.img
    let i2 := reduceNoise e i1
    let skew := e.skewAngle
    if (1 : Rat)/2 < ratAbs skew then
      some (correctOrientation e i2,
        { preprocessing_steps :=
            ["contrast_enhancement", "noise_reduction", "orientation_correction"]
          skew_corrected := true
          contrast_enhanced := true
          noise_reduced := true
          skew_angle := some skew })
    else
      some (i2,
        { preprocessing_steps := ["contrast_enhancement", "noise_reduction"]
          skew_corrected := false
          contrast_enhanced := true
          noise_reduced := true
          skew_angle := none })

/-! ### Pipeline orchestrator (src/pipeline/ocr_pii_pipeline.py)

`process_image` is modelled over the facts that drive its control flow.
The input-validation checks (`os.path.exists`, the `.jpg`/`.jpeg` suffix
test) raise inside the outer `try`, whose handler builds the error result
with the catch-all stage tag `'pipeline'`; the per-stage handlers tag
`'preprocessing'`, `'ocr'`, `'text_cleaning'`, `'pii_detection'`. -/

structure PipeEnv where
  fileExists : Bool
  isJpegName : Bool
  pre : PreEnv
  ocr : OcrEnv

structure PipeResult where
  success : Bool
  errorStage : Option String
  originalText : Str
  piiMatches : List PIIMatch
  textCleaningQuality : Option Rat
deriving DecidableEq

/-- `_create_error_result`: an error-shaped `PIIResult` with empty text
and matches and `success: False` in the metadata. -/
def createErrorResult (stage : String) : PipeResult :=
  { success := false, errorStage := some stage, originalText := [],
    piiMatches := [], textCleaningQuality := none }

/-- `process_image` (redaction and timing omitted; the OCR stage and the
cleaner/detector never raise in this model, matching the sources, so the
`'ocr'`/`'text_cleaning'`/`'pii_detection'` handlers are unreachable). -/
def processImageModel (env : PipeEnv) : PipeResult :=
  if !env.fileExists then createErrorResult "pipeline"
  else if !env.isJpegName then createErrorResult "pipeline"
  else
    match preprocessModel env.pre with
    | none => createErrorResult "preprocessing"
    | some _ =>
      let er := extractWithConfidence env.ocr
      let cleaned := cleanTextStr er.1
      let metrics := assessTextQuality er.1 cleaned
      let tq := dictGet metrics "overall_quality" 0
      { success := true
        errorStage := none
        originalText := cleaned
        piiMatches := detectAllPii cleaned
        textCleaningQuality := some tq }

/-! ### Properties of overlap resolution -/

/-- Two matches overlap, as tested by `_deduplicate_matches`
(half-open ranges intersect). -/
def Overlap (m ex : PIIMatch) : Prop :=
  m.start_pos < ex.end_pos ∧ ex.start_pos < m.end_pos

/-- The spec's non-overlap: one match ends no later than the other starts. -/
def NoOvl (a b : PIIMatch) : Prop := ¬ Overlap a b

instance (a b : PIIMatch) : Decidable (Overlap a b) := by unfold Overlap; infer_instance

instance (a b : PIIMatch) : Decidable (NoOvl a b) := by unfold NoOvl; infer_instance

lemma overlapB_iff {m ex : PIIMatch} : overlapB m ex = true ↔ Overlap m ex := by
  simp [overlapB, Overlap]

lemma Overlap.symm {a b : PIIMatch} (h : Overlap a b) : Overlap b a := ⟨h.2, h.1⟩

/-- Two matches that start no later than `m` and both overlap `m` must
overlap each other. -/
lemma overlap_of_both {x y m : PIIMatch} (hx : x.start_pos ≤ m.start_pos)
    (hy : y.start_pos ≤ m.start_pos) (h1 : Overlap m x) (h2 : Overlap m y) :
    Overlap x y :=
  ⟨lt_of_le_of_lt hx h2.1, lt_of_le_of_lt hy h1.1⟩

lemma mem_dedupStep {acc : List PIIMatch} {m x : PIIMatch}
    (hx : x ∈ dedupStep acc m) : x ∈ acc ∨ x = m := by
  cases hfind : acc.find? (fun ex => overlapB m ex) with
  | none =>
    simp only [dedupStep, hfind] at hx
    rcases List.mem_append.mp hx with h | h
    · exact Or.inl h
    · simp at h; exact Or.inr h
  | some ex =>
    simp only [dedupStep, hfind] at hx
    split at hx
    · rcases List.mem_append.mp hx with h | h
      · exact Or.inl ((List.erase_sublist _ _).subset h)
      · simp at h; exact Or.inr h
    · exact Or.inl hx

/-- One step of the deduplication walk preserves pairwise non-overlap and
sortedness, provided every accepted match starts no later than the
candidate (which the pre-sort guarantees). -/
lemma dedupStep_inv {acc : List PIIMatch} {m : PIIMatch}
    (hpw : acc.Pairwise NoOvl) (hsorted : acc.Pairwise leStart)
    (hle : ∀ x ∈ acc, x.start_pos ≤ m.start_pos) :
    (dedupStep acc m).Pairwise NoOvl ∧ (dedupStep acc m).Pairwise leStart := by
  cases hfind : acc.find? (fun ex => overlapB m ex) with
  | none =>
    simp only [dedupStep, hfind]
    have hno : ∀ x ∈ acc, ¬ Overlap m x := by
      intro x hx
      have := List.find?_eq_none.mp hfind x hx
      simpa [overlapB_iff] using this
    constructor
    · rw [List.pairwise_append]
      refine ⟨hpw, List.pairwise_singleton _ _, ?_⟩
      intro a ha b hb; simp at hb; subst hb
      exact fun hc => hno a ha hc.symm
    · rw [List.pairwise_append]
      refine ⟨hsorted, List.pairwise_singleton _ _, ?_⟩
      intro a ha b hb; simp at hb; subst hb
      exact hle a ha
  | some ex =>
    simp only [dedupStep, hfind]
    have hovl : Overlap m ex := overlapB_iff.mp (List.find?_some hfind)
    have hmem : ex ∈ acc := List.mem_of_find?_eq_some hfind
    have hsub : List.Sublist (acc.erase ex) acc := List.erase_sublist _ _
    split
    · -- the candidate wins: the overlapping accepted match is removed
      have hnoovl_m : ∀ y ∈ acc.erase ex, NoOvl y m := by
        intro y hy hovl_ym
        have hym : Overlap m y := hovl_ym.symm
        have hyacc : y ∈ acc := hsub.subset hy
        have hxy : Overlap y ex :=
          overlap_of_both (hle y hyacc) (hle ex hmem) hym hovl
        obtain ⟨l₁, l₂, _, hdec, her⟩ := List.exists_erase_eq hmem
        rw [her] at hy
        rw [hdec, List.pairwise_append] at hpw
        rcases List.mem_append.mp hy with h1 | h2
        · exact (hpw.2.2 y h1 ex (by simp)) hxy
        · exact (List.rel_of_pairwise_cons hpw.2.1 h2) hxy.symm
      constructor
      · rw [List.pairwise_append]
        refine ⟨hpw.sublist hsub, List.pairwise_singleton _ _, ?_⟩
        intro a ha b hb; simp at hb; subst hb
        exact hnoovl_m a ha
      · rw [List.pairwise_append]
        refine ⟨hsorted.sublist hsub, List.pairwise_singleton _ _, ?_⟩
        intro a ha b hb; simp at hb; subst hb
        exact hle a (hsub.subset ha)
    · -- tie or loss: the accepted set is unchanged
      exact ⟨hpw, hsorted⟩

lemma foldl_dedupStep_inv :
    ∀ (cs acc : List PIIMatch), acc.Pairwise NoOvl → acc.Pairwise leStart →
      (∀ x ∈ acc, ∀ c ∈ cs, x.start_pos ≤ c.start_pos) →
      cs.Pairwise leStart →
      (cs.foldl dedupStep acc).Pairwise NoOvl ∧
      (cs.foldl dedupStep acc).Pairwise leStart
  | [], acc, h1, h2, _, _ => by simpa using ⟨h1, h2⟩
  | c :: cs, acc, h1, h2, hcross, hcs => by
    simp only [List.foldl_cons]
    have hle : ∀ x ∈ acc, x.start_pos ≤ c.start_pos := fun x hx =>
      hcross x hx c (by simp)
    have hstep := dedupStep_inv h1 h2 hle
    refine foldl_dedupStep_inv cs (dedupStep acc c) hstep.1 hstep.2 ?_
      (List.Pairwise.of_cons hcs)
    intro x hx c' hc'
    rcases mem_dedupStep hx with h | h
    · exact hcross x h c' (by simp [hc'])
    · subst h; exact List.rel_of_pairwise_cons hcs hc'

instance : IsTotal PIIMatch leStart := ⟨fun a b => Nat.le_total _ _⟩

instance : IsTrans PIIMatch leStart := ⟨fun _ _ _ => Nat.le_trans⟩

lemma sortByStart_pairwise (l : List PIIMatch) : (sortByStart l).Pairwise leStart :=
  List.sorted_insertionSort leStart l

lemma deduplicateMatches_inv (ms : List PIIMatch) :
    (deduplicateMatches ms).Pairwise NoOvl ∧
    (deduplicateMatches ms).Pairwise leStart := by
  unfold deduplicateMatches
  split
  · simp_all
  · exact foldl_dedupStep_inv (sortByStart ms) [] (by simp) (by simp) (by simp)
      (sortByStart_pairwise ms)

lemma mem_foldl_dedupStep :
    ∀ {cs acc : List PIIMatch} {x : PIIMatch},
      x ∈ cs.foldl dedupStep acc → x ∈ acc ∨ x ∈ cs := by
  intro cs
  induction cs with
  | nil => intro acc x hx; exact Or.inl (by simpa using hx)
  | cons c cs ih =>
    intro acc x hx
    simp only [List.foldl_cons] at hx
    rcases ih hx with h | h
    · rcases mem_dedupStep h with h' | h'
      · exact Or.inl h'
      · exact Or.inr (by simp [h'])
    · exact Or.inr (by simp [h])

lemma mem_deduplicateMatches {ms : List PIIMatch} {x : PIIMatch}
    (h : x ∈ deduplicateMatches ms) : x ∈ ms := by
  unfold deduplicateMatches at h
  split at h
  · assumption
  · rcases mem_foldl_dedupStep h with h' | h'
    · simp at h'
    · exact (List.perm_insertionSort leStart ms).mem_iff.mp h'

/-! ### Claims C2 and C1: deduplication and `detect_all_pii` -/

/-- C2: `_deduplicate_matches` walks the candidates in ascending
`start_pos` order (the pre-sort); its result is sorted ascending by
`start_pos` with no two entries overlapping; a candidate overlapping no
accepted match is appended directly; on overlap with an accepted match,
a tie or lower confidence keeps the accepted set unchanged, and a
strictly higher confidence removes the accepted match and appends the
candidate. -/
theorem deduplicate_matches_spec_c2 :
    (∀ ms : List PIIMatch,
        List.Sorted leStart (deduplicateMatches ms) ∧
        List.Pairwise NoOvl (deduplicateMatches ms)) ∧
    (∀ acc m, (∀ ex ∈ acc, NoOvl m ex) → dedupStep acc m = acc ++ [m]) ∧
    (∀ acc m ex, List.find? (fun e => overlapB m e) acc = some ex →
        m.confidence ≤ ex.confidence → dedupStep acc m = acc) ∧
    (∀ acc m ex, List.find? (fun e => overlapB m e) acc = some ex →
        ex.confidence < m.confidence → dedupStep acc m = acc.erase ex ++ [m]) := by
  refine ⟨fun ms => ⟨(deduplicateMatches_inv ms).2, (deduplicateMatches_inv ms).1⟩,
    ?_, ?_, ?_⟩
  · intro acc m h
    have hn : List.find? (fun e => overlapB m e) acc = none := by
      apply List.find?_eq_none.mpr
      intro x hx
      simpa [overlapB_iff] using h x hx
    simp only [dedupStep, hn]
  · intro acc m ex hf hle
    simp only [dedupStep, hf, if_neg (not_lt.mpr hle)]
  · intro acc m ex hf hlt
    simp only [dedupStep, hf, if_pos hlt]

unseal Rat.add Rat.mul Rat.inv Rat.sub in
/-- Witness for C2 at concrete matches: a non-overlapping candidate is
appended; an overlapping candidate with equal confidence is dropped
(the accepted match is kept); an overlapping candidate with strictly
higher confidence replaces the accepted match. -/
theorem deduplicate_matches_spec_c2_witness :
    List.Sorted leStart
      (deduplicateMatches [⟨strL "bb", "name", 3/4, 10, 12⟩,
        ⟨strL "aa", "name", 1/2, 0, 5⟩, ⟨strL "dd", "name", 9/10, 3, 7⟩]) ∧
    List.Pairwise NoOvl
      (deduplicateMatches [⟨strL "bb", "name", 3/4, 10, 12⟩,
        ⟨strL "aa", "name", 1/2, 0, 5⟩, ⟨strL "dd", "name", 9/10, 3, 7⟩]) ∧
    dedupStep [⟨strL "aa", "name", 1/2, 0, 5⟩] ⟨strL "bb", "name", 3/4, 10, 12⟩ =
      [⟨strL "aa", "name", 1/2, 0, 5⟩] ++ [⟨strL "bb", "name", 3/4, 10, 12⟩] ∧
    dedupStep [⟨strL "aa", "name", 1/2, 0, 5⟩] ⟨strL "cc", "name", 1/2, 3, 7⟩ =
      [⟨strL "aa", "name", 1/2, 0, 5⟩] ∧
    dedupStep [⟨strL "aa", "name", 1/2, 0, 5⟩] ⟨strL "dd", "name", 9/10, 3, 7⟩ =
      [⟨strL "aa", "name", 1/2, 0, 5⟩].erase ⟨strL "aa", "name", 1/2, 0, 5⟩ ++
        [⟨strL "dd", "name", 9/10, 3, 7⟩] :=
  ⟨(deduplicate_matches_spec_c2.1 _).1,
   (deduplicate_matches_spec_c2.1 _).2,
   deduplicate_matches_spec_c2.2.1 _ _ (by decide),
   deduplicate_matches_spec_c2.2.2.1 _ _ ⟨strL "aa", "name", 1/2, 0, 5⟩
     (by decide) (by decide),
   deduplicate_matches_spec_c2.2.2.2 _ _ ⟨strL "aa", "name", 1/2, 0, 5⟩
     (by decide) (by decide)⟩

/-- C1 (amended): `detect_all_pii` returns matches sorted ascending by
`start_pos`, and within each single category no two matches overlap
(each category's detector deduplicates its own candidates); matches from
different categories are merely concatenated and sorted, so overlap
resolution does not apply across categories. -/
theorem detect_all_pii_sorted_c1 : ∀ text : Str,
    List.Sorted leStart (detectAllPii text) ∧
    List.Pairwise NoOvl (detectNames text) ∧
    List.Pairwise NoOvl (detectAddresses text) ∧
    List.Pairwise NoOvl (detectPhoneNumbers text) ∧
    List.Pairwise NoOvl (detectMedicalIds text) ∧
    List.Pairwise NoOvl (detectSSNs text) := by
  intro text
  refine ⟨?_, ?_, ?_, ?_, ?_, ?_⟩
  · simp only [detectAllPii]
    exact sortByStart_pairwise _
  · simp only [detectNames]
    exact (deduplicateMatches_inv _).1
  · simp only [detectAddresses]
    exact (deduplicateMatches_inv _).1
  · simp only [detectPhoneNumbers]
    exact (deduplicateMatches_inv _).1
  · simp only [detectMedicalIds]
    exact (deduplicateMatches_inv _).1
  · simp only [detectSSNs]
    exact (deduplicateMatches_inv _).1

set_option maxRecDepth 100000 in
unseal Rat.add Rat.mul Rat.inv Rat.sub in
/-- C1 counterexample: on `"123 Main Street"`, `detect_all_pii` returns
an address match spanning [0, 15) and a name match spanning [4, 15)
(two different categories), which overlap: the result is not pairwise
non-overlapping, refuting the cross-category part of the claim. -/
theorem detect_all_pii_c1_cex :
    (detectAllPii (strL "123 Main Street")).map
        (fun m => (m.pii_type, m.start_pos, m.end_pos)) =
      [("address", 0, 15), ("name", 4, 15)] ∧
    ¬ List.Pairwise NoOvl (detectAllPii (strL "123 Main Street")) := by
  constructor
  · decide
  · decide

/-! ### Claim C3: the SSN validator -/

/-- C3 (amended): `_is_valid_ssn` accepts a string iff its digit-only
length is exactly 9 and its area code (first three digits) is not `000`,
not `666` and does not start with `9`; it performs no group or serial
check.  In particular `"123-45-6789"` is valid, `"000-45-6789"`,
`"666-45-6789"`, `"923-45-6789"` are invalid, and any string with 8 or
10 digits is invalid. -/
theorem is_valid_ssn_c3 :
    (∀ s : Str, isValidSSN s = true ↔
      ((digitsOnly s).length = 9 ∧ (digitsOnly s).take 3 ≠ strL "000" ∧
        (digitsOnly s).take 3 ≠ strL "666" ∧
        ((digitsOnly s).take 3).head? ≠ some '9')) ∧
    isValidSSN (strL "123-45-6789") = true ∧
    isValidSSN (strL "000-45-6789") = false ∧
    isValidSSN (strL "666-45-6789") = false ∧
    isValidSSN (strL "923-45-6789") = false ∧
    (∀ s : Str, (digitsOnly s).length = 8 → isValidSSN s = false) ∧
    (∀ s : Str, (digitsOnly s).length = 10 → isValidSSN s = false) := by
  refine ⟨?_, by decide, by decide, by decide, by decide, ?_, ?_⟩
  · intro s
    simp only [isValidSSN]
    split_ifs with h1 h2 <;> simp_all <;> tauto
  · intro s h
    simp [isValidSSN, h]
  · intro s h
    simp [isValidSSN, h]

/-- Witness for C3 at 8- and 10-digit inputs. -/
theorem is_valid_ssn_c3_witness :
    (digitsOnly (strL "12345678")).length = 8 ∧
    isValidSSN (strL "12345678") = false ∧
    (digitsOnly (strL "1234567890")).length = 10 ∧
    isValidSSN (strL "1234567890") = false :=
  ⟨by decide, is_valid_ssn_c3.2.2.2.2.2.1 _ (by decide), by decide,
   is_valid_ssn_c3.2.2.2.2.2.2 _ (by decide)⟩

/-- C3 counterexample: `"123-00-6789"` has group `00`, so the claim's
rule rejects it, but `_is_valid_ssn` (which never examines the group or
serial) accepts it. -/
theorem is_valid_ssn_c3_cex :
    isValidSSN (strL "123-00-6789") = true ∧
    ssnValidClaim (strL "123-00-6789") = false := by
  exact ⟨by decide, by decide⟩

/-! ### Claim C8: confidence bounds -/

lemma ratMin_le_right (a b : Rat) : ratMin a b ≤ b := by
  unfold ratMin; split
  · assumption
  · exact le_refl b

lemma le_ratMin {c a b : Rat} (h1 : c ≤ a) (h2 : c ≤ b) : c ≤ ratMin a b := by
  unfold ratMin; split
  · exact h1
  · exact h2

lemma calcNameConfidence_bounds (a : Str) (b : String) (c : Str) (d : Nat) :
    0 ≤ calcNameConfidence a b c d ∧ calcNameConfidence a b c d ≤ 1 := by
  unfold calcNameConfidence
  refine ⟨le_ratMin ?_ zero_le_one, ratMin_le_right _ _⟩
  split_ifs <;> norm_num

lemma calcAddressConfidence_bounds (a : Str) (b : String) :
    0 ≤ calcAddressConfidence a b ∧ calcAddressConfidence a b ≤ 1 := by
  unfold calcAddressConfidence
  refine ⟨le_ratMin ?_ zero_le_one, ratMin_le_right _ _⟩
  split_ifs <;> norm_num

lemma calcPhoneConfidence_bounds (a : Str) (b : String) :
    0 ≤ calcPhoneConfidence a b ∧ calcPhoneConfidence a b ≤ 1 := by
  unfold calcPhoneConfidence
  refine ⟨le_ratMin ?_ zero_le_one, ratMin_le_right _ _⟩
  split_ifs <;> norm_num

lemma calcMedicalIdConfidence_bounds (a : Str) (b : String) :
    0 ≤ calcMedicalIdConfidence a b ∧ calcMedicalIdConfidence a b ≤ 1 := by
  unfold calcMedicalIdConfidence
  refine ⟨le_ratMin ?_ zero_le_one, ratMin_le_right _ _⟩
  split_ifs <;> norm_num

lemma calcSSNConfidence_bounds (a : Str) (b : String) :
    0 ≤ calcSSNConfidence a b ∧ calcSSNConfidence a b ≤ 1 := by
  unfold calcSSNConfidence
  refine ⟨le_ratMin ?_ zero_le_one, ratMin_le_right _ _⟩
  split_ifs <;> norm_num

lemma nameMatchOf_conf {text : Str} {p : PatSpec} {mr : MRes} {x : PIIMatch}
    (h : nameMatchOf text p mr = some x) : 0 ≤ x.confidence ∧ x.confidence ≤ 1 := by
  simp only [nameMatchOf] at h
  split at h
  · simp at h
  · injection h with h'
    subst h'
    exact calcNameConfidence_bounds _ _ _ _

lemma addressMatchOf_conf (text : Str) (p : PatSpec) (mr : MRes) :
    0 ≤ (addressMatchOf text p mr).confidence ∧
    (addressMatchOf text p mr).confidence ≤ 1 := by
  simp only [addressMatchOf]
  exact calcAddressConfidence_bounds _ _

lemma phoneMatchOf_conf {text : Str} {p : PatSpec} {mr : MRes} {x : PIIMatch}
    (h : phoneMatchOf text p mr = some x) : 0 ≤ x.confidence ∧ x.confidence ≤ 1 := by
  simp only [phoneMatchOf] at h
  split at h
  · injection h with h'
    subst h'
    exact calcPhoneConfidence_bounds _ _
  · simp at h

lemma medicalIdMatchOf_conf (text : Str) (p : PatSpec) (mr : MRes) :
    0 ≤ (medicalIdMatchOf text p mr).confidence ∧
    (medicalIdMatchOf text p mr).confidence ≤ 1 := by
  simp only [medicalIdMatchOf]
  exact calcMedicalIdConfidence_bounds _ _

lemma ssnMatchOf_conf {text : Str} {p : PatSpec} {mr : MRes} {x : PIIMatch}
    (h : ssnMatchOf text p mr = some x) : 0 ≤ x.confidence ∧ x.confidence ≤ 1 := by
  simp only [ssnMatchOf] at h
  split at h
  · injection h with h'
    subst h'
    exact calcSSNConfidence_bounds
      (pyStrip (pySlice text (groupSpan p mr).1 (groupSpan p mr).2)) p.src
  · simp at h

/-- C8: every match produced by `detect_all_pii`, of every category, has
its confidence in [0, 1] — each category's heuristic is a non-negative
base plus non-negative bonuses, capped at 1, and deduplication only ever
keeps already-produced matches. -/
theorem pii_confidence_c8 : ∀ (text : Str), ∀ m ∈ detectAllPii text,
    0 ≤ m.confidence ∧ m.confidence ≤ 1 := by
  intro text m hm
  simp only [detectAllPii, sortByStart] at hm
  have hm1 := (List.perm_insertionSort leStart _).mem_iff.mp hm
  simp only [List.mem_append] at hm1
  rcases hm1 with ((((h | h) | h) | h) | h)
  · simp only [detectNames] at h
    have h2 := mem_deduplicateMatches h
    rw [List.mem_flatMap] at h2
    obtain ⟨p, _, h3⟩ := h2
    rw [List.mem_filterMap] at h3
    obtain ⟨mr, _, h4⟩ := h3
    exact nameMatchOf_conf h4
  · simp only [detectAddresses] at h
    have h2 := mem_deduplicateMatches h
    rw [List.mem_flatMap] at h2
    obtain ⟨p, _, h3⟩ := h2
    rw [List.mem_map] at h3
    obtain ⟨mr, _, h4⟩ := h3
    rw [← h4]
    exact addressMatchOf_conf _ _ _
  · simp only [detectPhoneNumbers] at h
    have h2 := mem_deduplicateMatches h
    rw [List.mem_flatMap] at h2
    obtain ⟨p, _, h3⟩ := h2
    rw [List.mem_filterMap] at h3
    obtain ⟨mr, _, h4⟩ := h3
    exact phoneMatchOf_conf h4
  · simp only [detectMedicalIds] at h
    have h2 := mem_deduplicateMatches h
    rw [List.mem_flatMap] at h2
    obtain ⟨p, _, h3⟩ := h2
    rw [List.mem_map] at h3
    obtain ⟨mr, _, h4⟩ := h3
    rw [← h4]
    exact medicalIdMatchOf_conf _ _ _
  · simp only [detectSSNs] at h
    have h2 := mem_deduplicateMatches h
    rw [List.mem_flatMap] at h2
    obtain ⟨p, _, h3⟩ := h2
    rw [List.mem_filterMap] at h3
    obtain ⟨mr, _, h4⟩ := h3
    exact ssnMatchOf_conf h4

set_option maxRecDepth 100000 in
unseal Rat.add Rat.mul Rat.inv Rat.sub in
/-- Witness for C8: the SSN match detected in `"SSN: 123-45-6789"` has
confidence in [0, 1]. -/
theorem pii_confidence_c8_witness :
    (⟨strL "123-45-6789", "ssn", 1, 5, 16⟩ : PIIMatch) ∈
      detectAllPii (strL "SSN: 123-45-6789") ∧
    (0 ≤ (⟨strL "123-45-6789", "ssn", 1, 5, 16⟩ : PIIMatch).confidence ∧
      (⟨strL "123-45-6789", "ssn", 1, 5, 16⟩ : PIIMatch).confidence ≤ 1) :=
  have hmem : (⟨strL "123-45-6789", "ssn", 1, 5, 16⟩ : PIIMatch) ∈
      detectAllPii (strL "SSN: 123-45-6789") := by decide
  ⟨hmem, pii_confidence_c8 _ _ hmem⟩

/-! ### Claim C6: the quality score -/

lemma ratMin_le_left (a b : Rat) : ratMin a b ≤ a := by
  unfold ratMin; split
  · exact le_refl a
  · exact le_of_lt (not_le.mp (by assumption))

lemma score_components_bounds (c : Str) :
    (0 ≤ medicalScoreOf c ∧ medicalScoreOf c ≤ 1) ∧
    (0 ≤ structureScoreOf c ∧ structureScoreOf c ≤ 1) := by
  refine ⟨⟨le_ratMin zero_le_one ?_, ratMin_le_left _ _⟩,
    ⟨le_ratMin zero_le_one ?_, ratMin_le_left _ _⟩⟩
  · positivity
  · positivity

/-- C6 (amended): the quality score equals the weighted composite
`0.3·word_retention + 0.2·(1−char_reduction) + 0.3·medical_score +
0.2·structure_score`; it is 0.0 whenever either input is empty; and it
lies in [0, 1] whenever cleaning does not increase the word count or the
character count (for a cleaned text longer than the original, the word
retention and length-ratio terms are unbounded and the score can exceed
1, see the counterexample). -/
theorem assess_text_quality_c6 :
    (∀ c : Str, dictGet (assessTextQuality [] c) "quality_score" 0 = 0) ∧
    (∀ o : Str, dictGet (assessTextQuality o []) "quality_score" 0 = 0) ∧
    (∀ o c : Str, o ≠ [] → c ≠ [] →
      dictGet (assessTextQuality o c) "quality_score" 0 =
        wordRetentionOf o c * (3/10) + (1 - charReductionOf o c) * (2/10) +
          medicalScoreOf c * (3/10) + structureScoreOf c * (2/10)) ∧
    (∀ o c : Str, (pySplit c).length ≤ (pySplit o).length →
      c.length ≤ o.length →
      0 ≤ dictGet (assessTextQuality o c) "quality_score" 0 ∧
      dictGet (assessTextQuality o c) "quality_score" 0 ≤ 1) := by
  have hqs : ∀ o c : Str, o ≠ [] → c ≠ [] →
      dictGet (assessTextQuality o c) "quality_score" 0 = qualityScoreOf o c := by
    intro o c ho hc
    have h1 : o.isEmpty = false := by simpa using ho
    have h2 : c.isEmpty = false := by simpa using hc
    simp [assessTextQuality, h1, h2, dictGet]
  have hempty : ∀ o c : Str, o = [] ∨ c = [] →
      dictGet (assessTextQuality o c) "quality_score" 0 = 0 := by
    intro o c h
    rcases h with rfl | rfl
    · simp only [assessTextQuality]
      split_ifs <;> simp_all [dictGet]
    · simp only [assessTextQuality]
      split_ifs <;> simp_all [dictGet]
  refine ⟨fun c => hempty [] c (Or.inl rfl), fun o => hempty o [] (Or.inr rfl),
    ?_, ?_⟩
  · intro o c ho hc
    rw [hqs o c ho hc]
    simp [qualityScoreOf]
  · intro o c h1 h2
    by_cases ho : o = []
    · rw [hempty o c (Or.inl ho)]; norm_num
    by_cases hc : c = []
    · rw [hempty o c (Or.inr hc)]; norm_num
    rw [hqs o c ho hc]
    have holen : (0 : Rat) < (o.length : Rat) := by
      have := List.length_pos.mpr ho
      exact_mod_cast this
    have hwr : 0 ≤ wordRetentionOf o c ∧ wordRetentionOf o c ≤ 1 := by
      unfold wordRetentionOf
      split_ifs with how
      · constructor
        · positivity
        · rw [div_le_one (by exact_mod_cast how)]
          exact_mod_cast h1
      · norm_num
    have hcr : 0 ≤ 1 - charReductionOf o c ∧ 1 - charReductionOf o c ≤ 1 := by
      unfold charReductionOf
      rw [if_pos (by exact_mod_cast List.length_pos.mpr ho)]
      constructor
      · have : (0 : Rat) ≤ (c.length : Rat) / (o.length : Rat) := by positivity
        linarith
      · have : (c.length : Rat) / (o.length : Rat) ≤ 1 := by
          rw [div_le_one holen]
          exact_mod_cast h2
        linarith
    have hms := (score_components_bounds c).1
    have hss := (score_components_bounds c).2
    unfold qualityScoreOf
    constructor
    · nlinarith [hwr.1, hcr.1, hms.1, hss.1]
    · nlinarith [hwr.1, hwr.2, hcr.1, hcr.2, hms.1, hms.2, hss.1, hss.2]

unseal Rat.add Rat.mul Rat.inv Rat.sub in
/-- Witness for C6 at a concrete non-expanding pair. -/
theorem assess_text_quality_c6_witness :
    dictGet (assessTextQuality (strL "take dose") (strL "take dose"))
        "quality_score" 0 =
      wordRetentionOf (strL "take dose") (strL "take dose") * (3/10) +
        (1 - charReductionOf (strL "take dose") (strL "take dose")) * (2/10) +
        medicalScoreOf (strL "take dose") * (3/10) +
        structureScoreOf (strL "take dose") * (2/10) ∧
    0 ≤ dictGet (assessTextQuality (strL "take dose") (strL "take dose"))
        "quality_score" 0 ∧
    dictGet (assessTextQuality (strL "take dose") (strL "take dose"))
        "quality_score" 0 ≤ 1 :=
  ⟨assess_text_quality_c6.2.2.1 _ _ (by decide) (by decide),
   (assess_text_quality_c6.2.2.2 _ _ (by decide) (by decide)).1,
   (assess_text_quality_c6.2.2.2 _ _ (by decide) (by decide)).2⟩

set_option maxRecDepth 100000 in
unseal Rat.add Rat.mul Rat.inv Rat.sub in
/-- C6 counterexample: for original `"a"` and cleaned `"bb bb bb"` the
score is 5/2 > 1, refuting "lies in [0,1] for every pair of inputs". -/
theorem assess_text_quality_c6_cex :
    dictGet (assessTextQuality (strL "a") (strL "bb bb bb")) "quality_score" 0 =
      5/2 ∧
    1 < dictGet (assessTextQuality (strL "a") (strL "bb bb bb"))
        "quality_score" 0 := by
  exact ⟨by decide, by decide⟩

/-! ### Claim C7: idempotence of the cleaning passes -/

lemma collapseWsAux_congr : ∀ (f1 f2 : Nat) (s : Str), s.length < f1 →
    s.length < f2 → collapseWsAux f1 s = collapseWsAux f2 s
  | 0, _, _, h1, _ => absurd h1 (Nat.not_lt_zero _)
  | _ + 1, 0, _, _, h2 => absurd h2 (Nat.not_lt_zero _)
  | _ + 1, _ + 1, [], _, _ => rfl
  | f1 + 1, f2 + 1, c :: cs, h1, h2 => by
    simp only [collapseWsAux]
    have hds := (List.dropWhile_sublist (l := cs) (p := pyIsSpace)).length_le
    simp only [List.length_cons] at h1 h2
    split
    · rw [collapseWsAux_congr f1 f2 (cs.dropWhile pyIsSpace) (by omega) (by omega)]
    · rw [collapseWsAux_congr f1 f2 cs (by omega) (by omega)]

lemma collapseWs_cons_space (c : Char) (cs : Str) (h : pyIsSpace c = true) :
    collapseWs (c :: cs) = ' ' :: collapseWs (cs.dropWhile pyIsSpace) := by
  have hds := (List.dropWhile_sublist (l := cs) (p := pyIsSpace)).length_le
  simp only [collapseWs, List.length_cons, collapseWsAux, h, if_true]
  rw [collapseWsAux_congr (cs.length + 1) ((cs.dropWhile pyIsSpace).length + 1)
    (cs.dropWhile pyIsSpace) (by omega) (by omega)]

lemma collapseWs_cons_nospace (c : Char) (cs : Str) (h : pyIsSpace c = false) :
    collapseWs (c :: cs) = c :: collapseWs cs := by
  simp only [collapseWs, List.length_cons, collapseWsAux, h, Bool.false_eq_true,
    if_false]

lemma dropWhile_head_not {p : Char → Bool} :
    ∀ {l : Str} {c : Char}, (l.dropWhile p).head? = some c → p c = false := by
  intro l
  induction l with
  | nil => intro c h; simp at h
  | cons a as ih =>
    intro c h
    rw [List.dropWhile_cons] at h
    by_cases hpa : p a = true
    · rw [if_pos hpa] at h
      exact ih h
    · rw [if_neg hpa] at h
      simp at h
      rw [← h]
      simpa using hpa

lemma goodStr_collapseWs : ∀ s : Str, goodStr (collapseWs s)
  | [] => by
    constructor
    · simp [collapseWs, collapseWsAux]
    · simp [collapseWs, collapseWsAux]
  | c :: cs => by
    by_cases h : pyIsSpace c = true
    · rw [collapseWs_cons_space c cs h]
      have IH := goodStr_collapseWs (cs.dropWhile pyIsSpace)
      constructor
      · rw [List.chain'_cons']
        refine ⟨?_, IH.1⟩
        intro b hb
        cases hrest : cs.dropWhile pyIsSpace with
        | nil => rw [hrest] at hb; simp [collapseWs, collapseWsAux] at hb
        | cons e es =>
          have he : pyIsSpace e = false := dropWhile_head_not (by rw [hrest]; rfl)
          rw [hrest, collapseWs_cons_nospace e es he] at hb
          simp at hb
          subst hb
          exact fun hc => by simp [he] at hc
      · intro x hx hsp
        rcases List.mem_cons.mp hx with rfl | hx'
        · rfl
        · exact IH.2 x hx' hsp
    · have h' : pyIsSpace c = false := by simpa using h
      rw [collapseWs_cons_nospace c cs h']
      have IH := goodStr_collapseWs cs
      constructor
      · rw [List.chain'_cons']
        refine ⟨?_, IH.1⟩
        intro b _
        exact fun hc => by simp [h'] at hc
      · intro x hx hsp
        rcases List.mem_cons.mp hx with rfl | hx'
        · simp [h'] at hsp
        · exact IH.2 x hx' hsp
termination_by s => s.length
decreasing_by
  · have := (List.dropWhile_sublist (l := cs) (p := pyIsSpace)).length_le
    simp only [List.length_cons]; omega
  · simp only [List.length_cons]; omega

lemma nonAdjSp_symm {a b : Char} (h : nonAdjSp a b) : nonAdjSp b a :=
  fun hc => h ⟨hc.2, hc.1⟩

lemma chain_reverse_nonAdj {l : Str} (h : List.Chain' nonAdjSp l) :
    List.Chain' nonAdjSp l.reverse := by
  rw [List.chain'_reverse]
  exact List.Chain'.imp (fun a b hab => nonAdjSp_symm hab) h

lemma goodStr_pyStrip {s : Str} (h : goodStr s) : goodStr (pyStrip s) := by
  obtain ⟨hc, hm⟩ := h
  unfold pyStrip
  constructor
  · apply chain_reverse_nonAdj
    apply List.Chain'.suffix _ (List.dropWhile_suffix _)
    apply chain_reverse_nonAdj
    exact List.Chain'.suffix hc (List.dropWhile_suffix _)
  · intro c hcm hsp
    apply hm c _ hsp
    simp only [List.mem_reverse] at hcm
    have h2 := (List.dropWhile_sublist _).subset hcm
    simp only [List.mem_reverse] at h2
    exact (List.dropWhile_sublist _).subset h2

lemma dropWhile_getLast_not {p : Char → Bool} {v : Str}
    (hv : ∀ c, v.getLast? = some c → p c = false) :
    ∀ c, (v.dropWhile p).getLast? = some c → p c = false := by
  intro c hc
  obtain ⟨w, hw⟩ := List.dropWhile_suffix (l := v) (p := p)
  apply hv
  rw [← hw, List.getLast?_append, hc]
  rfl

lemma pyStrip_ends (s : Str) :
    (∀ c, (pyStrip s).head? = some c → pyIsSpace c = false) ∧
    (∀ c, (pyStrip s).getLast? = some c → pyIsSpace c = false) := by
  unfold pyStrip
  constructor
  · intro c hc
    rw [List.head?_reverse] at hc
    revert hc
    apply dropWhile_getLast_not
    intro d hd
    rw [List.getLast?_reverse] at hd
    exact dropWhile_head_not hd
  · intro c hc
    rw [List.getLast?_reverse] at hc
    exact dropWhile_head_not hc

lemma collapseWs_of_goodStr :
    ∀ s : Str, goodStr s → (∀ c, s.getLast? = some c → pyIsSpace c = false) →
      collapseWs s = s
  | [], _, _ => rfl
  | c :: cs, hg, hl => by
    by_cases h : pyIsSpace c = true
    · have hc : c = ' ' := hg.2 c (by simp) h
      cases cs with
      | nil =>
        exfalso
        have := hl c (by simp)
        simp [h] at this
      | cons e es =>
        have he : pyIsSpace e = false := by
          have := (List.chain'_cons'.mp hg.1).1 e (by simp)
          unfold nonAdjSp at this
          by_contra hee
          exact this ⟨h, by simpa using hee⟩
        rw [collapseWs_cons_space c (e :: es) h]
        rw [List.dropWhile_cons, if_neg (by simp [he])]
        rw [collapseWs_of_goodStr (e :: es)
          ⟨(List.chain'_cons'.mp hg.1).2, fun x hx => hg.2 x (by simp [hx])⟩
          (fun x hx => hl x (by rw [List.getLast?_cons_cons]; exact hx))]
        rw [hc]
    · have h' : pyIsSpace c = false := by simpa using h
      rw [collapseWs_cons_nospace c cs h']
      cases hcs : cs with
      | nil => rfl
      | cons e es =>
        rw [← hcs]
        rw [collapseWs_of_goodStr cs
          ⟨(List.chain'_cons'.mp hg.1).2, fun x hx => hg.2 x (by simp [hx])⟩
          (fun x hx => hl x (by
            rw [hcs] at hx
            rw [hcs, List.getLast?_cons_cons]
            exact hx))]
termination_by s => s.length

lemma pyStrip_of_clean_ends {s : Str}
    (hh : ∀ c, s.head? = some c → pyIsSpace c = false)
    (hl : ∀ c, s.getLast? = some c → pyIsSpace c = false) :
    pyStrip s = s := by
  unfold pyStrip
  have h1 : s.dropWhile pyIsSpace = s := by
    cases s with
    | nil => rfl
    | cons a as =>
      rw [List.dropWhile_cons, if_neg (by simp [hh a (by simp)])]
  rw [h1]
  have h2 : s.reverse.dropWhile pyIsSpace = s.reverse := by
    cases hs : s.reverse with
    | nil => rfl
    | cons a as =>
      rw [List.dropWhile_cons, if_neg ?_]
      simp only [Bool.not_eq_true]
      apply hl
      rw [← List.head?_reverse, hs]
      rfl
  rw [h2, List.reverse_reverse]

/-- C7 (amended): the whitespace-normalization pass is idempotent, but
the full cleaning pipeline is not: re-running `clean_text` on its own
output can change it again, because artifact removal can create a new
isolated-punctuation artifact (`"a . . b"` → `"a . b"` → `"a b"`); the
artifact-removal pass alone is likewise not idempotent. -/
theorem clean_text_idempotence_c7 :
    (∀ t : Str, normalizeWhitespace (normalizeWhitespace t) = normalizeWhitespace t) ∧
    cleanTextStr (cleanTextStr (strL "a . . b")) ≠ cleanTextStr (strL "a . . b") ∧
    removeArtifacts (removeArtifacts (strL "a . . b")) ≠
      removeArtifacts (strL "a . . b") := by
  refine ⟨?_, by decide, by decide⟩
  intro t
  by_cases ht : t.isEmpty
  · simp [normalizeWhitespace, ht]
  · have hu : normalizeWhitespace t = pyStrip (collapseWs t) := by
      simp [normalizeWhitespace, ht]
    by_cases hu2 : (normalizeWhitespace t).isEmpty
    · have h0 : normalizeWhitespace t = [] := by simpa using hu2
      rw [h0]
      simp [normalizeWhitespace]
    · rw [hu] at hu2 ⊢
      simp only [normalizeWhitespace, hu2, if_false]
      have hgood : goodStr (pyStrip (collapseWs t)) :=
        goodStr_pyStrip (goodStr_collapseWs t)
      have hends := pyStrip_ends (collapseWs t)
      rw [collapseWs_of_goodStr _ hgood hends.2]
      exact pyStrip_of_clean_ends hends.1 hends.2

/-! ### Claim C4: the OCR fallback policy -/

/-- C4 (amended): fallback triggers iff the primary result's text is
empty or its confidence is below 0.3 — AND, only when the preferred
engine is Tesseract, EasyOCR was successfully initialized at
construction time; when the preferred engine is EasyOCR the fallback to
Tesseract is attempted unconditionally (no Tesseract-availability state
exists).  When fallback runs, the result with the strictly higher
confidence is selected (ties favor the primary) and `fallback_used` /
`selected_engine` are recorded; without fallback the primary result is
selected. -/
theorem ocr_fallback_c4 : ∀ e : OcrEnv,
    ((extractWithConfidence e).2.2.fallbackUsed =
      (if e.preferred = "tesseract" then lowOrEmpty e && e.easyAvailable
       else lowOrEmpty e)) ∧
    ((extractWithConfidence e).2.2.fallbackUsed = true →
      (extractWithConfidence e).2.1 =
        (if (primaryRes e).conf < (secondaryRes e).conf then (secondaryRes e).conf
         else (primaryRes e).conf) ∧
      (extractWithConfidence e).1 =
        cleanExtractedText
          (if (primaryRes e).conf < (secondaryRes e).conf then (secondaryRes e).text
           else (primaryRes e).text) ∧
      (extractWithConfidence e).2.2.selectedEngine =
        some (if (primaryRes e).conf < (secondaryRes e).conf then secondaryName e
              else primaryName e)) ∧
    ((extractWithConfidence e).2.2.fallbackUsed = false →
      (extractWithConfidence e).2.1 = (primaryRes e).conf ∧
      (extractWithConfidence e).1 = cleanExtractedText (primaryRes e).text ∧
      (extractWithConfidence e).2.2.selectedEngine = some (primaryName e)) := by
  intro e
  by_cases hp : e.preferred = "tesseract" <;>
    simp only [extractWithConfidence, primaryRes, secondaryRes, primaryName,
      secondaryName, lowOrEmpty, hp, if_true, if_false, ite_true, ite_false] <;>
    split_ifs <;> simp_all

set_option maxRecDepth 10000 in
unseal Rat.add Rat.mul Rat.inv Rat.sub in
/-- Witness for C4: with EasyOCR preferred and a low-confidence EasyOCR
result, fallback runs; the primary result wins the confidence comparison
against the empty Tesseract result. -/
theorem ocr_fallback_c4_witness :
    ((extractWithConfidence
        ⟨"easyocr", false, true, ⟨strL "t", 1/2⟩, ⟨strL "hi", 1/10⟩⟩).2.2.fallbackUsed =
      true) ∧
    ((extractWithConfidence
          ⟨"easyocr", false, true, ⟨strL "t", 1/2⟩, ⟨strL "hi", 1/10⟩⟩).2.1 =
        (if (primaryRes ⟨"easyocr", false, true, ⟨strL "t", 1/2⟩, ⟨strL "hi", 1/10⟩⟩).conf <
              (secondaryRes ⟨"easyocr", false, true, ⟨strL "t", 1/2⟩, ⟨strL "hi", 1/10⟩⟩).conf
         then (secondaryRes ⟨"easyocr", false, true, ⟨strL "t", 1/2⟩, ⟨strL "hi", 1/10⟩⟩).conf
         else (primaryRes ⟨"easyocr", false, true, ⟨strL "t", 1/2⟩, ⟨strL "hi", 1/10⟩⟩).conf) ∧
      (extractWithConfidence
          ⟨"easyocr", false, true, ⟨strL "t", 1/2⟩, ⟨strL "hi", 1/10⟩⟩).1 =
        cleanExtractedText
          (if (primaryRes ⟨"easyocr", false, true, ⟨strL "t", 1/2⟩, ⟨strL "hi", 1/10⟩⟩).conf <
                (secondaryRes ⟨"easyocr", false, true, ⟨strL "t", 1/2⟩, ⟨strL "hi", 1/10⟩⟩).conf
           then (secondaryRes ⟨"easyocr", false, true, ⟨strL "t", 1/2⟩, ⟨strL "hi", 1/10⟩⟩).text
           else (primaryRes ⟨"easyocr", false, true, ⟨strL "t", 1/2⟩, ⟨strL "hi", 1/10⟩⟩).text) ∧
      (extractWithConfidence
          ⟨"easyocr", false, true, ⟨strL "t", 1/2⟩, ⟨strL "hi", 1/10⟩⟩).2.2.selectedEngine =
        some (if (primaryRes ⟨"easyocr", false, true, ⟨strL "t", 1/2⟩, ⟨strL "hi", 1/10⟩⟩).conf <
                  (secondaryRes ⟨"easyocr", false, true, ⟨strL "t", 1/2⟩, ⟨strL "hi", 1/10⟩⟩).conf
              then secondaryName ⟨"easyocr", false, true, ⟨strL "t", 1/2⟩, ⟨strL "hi", 1/10⟩⟩
              else primaryName ⟨"easyocr", false, true, ⟨strL "t", 1/2⟩, ⟨strL "hi", 1/10⟩⟩)) :=
  ⟨(ocr_fallback_c4 _).1.trans (by decide),
   (ocr_fallback_c4 _).2.1 ((ocr_fallback_c4 _).1.trans (by decide))⟩

set_option maxRecDepth 10000 in
unseal Rat.add Rat.mul Rat.inv Rat.sub in
/-- C4 counterexample: with EasyOCR preferred, a low-confidence primary
result triggers fallback even though Tesseract (the secondary backend)
failed at construction time — there is no availability gate in this
branch, refuting the "iff … AND the secondary backend is available"
form of the claim. -/
theorem ocr_fallback_c4_cex :
    (extractWithConfidence
        ⟨"easyocr", false, true, ⟨strL "t", 1/2⟩, ⟨strL "hi", 1/10⟩⟩).2.2.fallbackUsed =
      true ∧
    (⟨"easyocr", false, true, ⟨strL "t", 1/2⟩, ⟨strL "hi", 1/10⟩⟩ : OcrEnv).tessAvailable =
      false := by
  exact ⟨by decide, rfl⟩

/-! ### Claim C9: preprocessing failure policy and the steps list -/

/-- C9 (amended): when contrast enhancement (or noise reduction) fails
internally, the step returns the image unmodified and preprocessing does
not fail — but the step's name is appended to
`metadata.preprocessing_steps` unconditionally, so the list names the
attempted contrast and noise steps regardless of their internal success
(`orientation_correction` alone is appended only when the skew threshold
is exceeded). -/
theorem preprocess_steps_c9 : ∀ (e : PreEnv) (img : Nat),
    (e.contrastOk = false → enhanceContrast e img = img) ∧
    (e.noiseOk = false → reduceNoise e img = img) ∧
    (e.loadOk = true → (preprocessModel e).isSome) ∧
    (∀ r, preprocessModel e = some r →
      r.2.preprocessing_steps =
        ["contrast_enhancement", "noise_reduction"] ++
          (if (1 : Rat)/2 < ratAbs e.skewAngle then ["orientation_correction"]
           else [])) := by
  intro e img
  refine ⟨fun h => by simp [enhanceContrast, h], fun h => by simp [reduceNoise, h],
    fun h => by simp [preprocessModel, h]; split_ifs <;> simp, ?_⟩
  intro r hr
  simp only [preprocessModel] at hr
  by_cases h1 : (!e.loadOk) = true
  · rw [if_pos h1] at hr
    simp at hr
  · rw [if_neg h1] at hr
    by_cases h2 : (1 : Rat)/2 < ratAbs e.skewAngle
    · rw [if_pos h2] at hr
      injection hr with hr
      subst hr
      rw [if_pos h2]
      rfl
    · rw [if_neg h2] at hr
      injection hr with hr
      subst hr
      rw [if_neg h2]
      simp

set_option maxRecDepth 10000 in
unseal Rat.add Rat.mul Rat.inv Rat.sub in
/-- Witness for C9: an environment whose contrast filter fails
internally still yields a successful preprocessing result listing both
step names. -/
theorem preprocess_steps_c9_witness :
    enhanceContrast ⟨true, 7, false, id, true, Nat.succ, 0, true, id⟩ 7 = 7 ∧
    reduceNoise ⟨true, 7, true, id, false, Nat.succ, 0, true, id⟩ 7 = 7 ∧
    (preprocessModel ⟨true, 7, false, id, true, Nat.succ, 0, true, id⟩).isSome ∧
    (preprocessModel ⟨true, 7, false, id, true, Nat.succ, 0, true, id⟩ =
        some (8, ⟨["contrast_enhancement", "noise_reduction"], false, true, true,
          none⟩) →
      (8, (⟨["contrast_enhancement", "noise_reduction"], false, true, true,
          none⟩ : PreMeta)).2.preprocessing_steps =
        ["contrast_enhancement", "noise_reduction"] ++
          (if (1 : Rat)/2 <
              ratAbs (⟨true, 7, false, id, true, Nat.succ, 0, true,
                id⟩ : PreEnv).skewAngle then ["orientation_correction"]
           else [])) :=
  ⟨(preprocess_steps_c9 _ 7).1 rfl,
   (preprocess_steps_c9 ⟨true, 7, true, id, false, Nat.succ, 0, true, id⟩ 7).2.1 rfl,
   (preprocess_steps_c9 _ 7).2.2.1 rfl,
   fun h => (preprocess_steps_c9 _ 7).2.2.2 _ h⟩

set_option maxRecDepth 10000 in
unseal Rat.add Rat.mul Rat.inv Rat.sub in
/-- C9 counterexample: with the contrast filter failing internally, the
produced metadata still lists `contrast_enhancement` among the applied
steps, refuting "omits that step from metadata.preprocessing_steps". -/
theorem preprocess_steps_c9_cex :
    (⟨true, 7, false, id, true, Nat.succ, 0, true, id⟩ : PreEnv).contrastOk = false ∧
    preprocessModel ⟨true, 7, false, id, true, Nat.succ, 0, true, id⟩ =
      some (8, ⟨["contrast_enhancement", "noise_reduction"], false, true, true,
        none⟩) ∧
    "contrast_enhancement" ∈
      (⟨["contrast_enhancement", "noise_reduction"], false, true, true,
        none⟩ : PreMeta).preprocessing_steps := by
  exact ⟨rfl, by decide, by decide⟩

/-! ### Claim C5: the missing-input-file error path -/

/-- C5 (amended): when the input file does not exist, `process_image`
returns an error-shaped result (success false, empty text and matches)
— no partial success result — but the `FileNotFoundError` is caught by
the outer catch-all handler, so the failing-stage tag is the generic
`'pipeline'`, not `'input'` or any tag identifying input validation. -/
theorem pipeline_missing_file_c5 : ∀ env : PipeEnv, env.fileExists = false →
    processImageModel env = createErrorResult "pipeline" ∧
    (processImageModel env).success = false ∧
    (processImageModel env).errorStage = some "pipeline" ∧
    (processImageModel env).piiMatches = [] ∧
    (processImageModel env).originalText = [] := by
  intro env h
  have : processImageModel env = createErrorResult "pipeline" := by
    simp [processImageModel, h]
  refine ⟨this, ?_, ?_, ?_, ?_⟩ <;> rw [this] <;> rfl

/-- Witness for C5 at a concrete environment with a missing file. -/
theorem pipeline_missing_file_c5_witness :
    processImageModel
        ⟨false, true, ⟨true, 7, true, id, true, id, 0, true, id⟩,
          ⟨"tesseract", true, false, ⟨strL "hi", 1⟩, ⟨[], 0⟩⟩⟩ =
      createErrorResult "pipeline" ∧
    (processImageModel
        ⟨false, true, ⟨true, 7, true, id, true, id, 0, true, id⟩,
          ⟨"tesseract", true, false, ⟨strL "hi", 1⟩, ⟨[], 0⟩⟩⟩).success = false ∧
    (processImageModel
        ⟨false, true, ⟨true, 7, true, id, true, id, 0, true, id⟩,
          ⟨"tesseract", true, false, ⟨strL "hi", 1⟩, ⟨[], 0⟩⟩⟩).errorStage =
      some "pipeline" ∧
    (processImageModel
        ⟨false, true, ⟨true, 7, true, id, true, id, 0, true, id⟩,
          ⟨"tesseract", true, false, ⟨strL "hi", 1⟩, ⟨[], 0⟩⟩⟩).piiMatches = [] ∧
    (processImageModel
        ⟨false, true, ⟨true, 7, true, id, true, id, 0, true, id⟩,
          ⟨"tesseract", true, false, ⟨strL "hi", 1⟩, ⟨[], 0⟩⟩⟩).originalText = [] :=
  pipeline_missing_file_c5 _ rfl

/-- C5 counterexample: the stage tag on the missing-file error is the
catch-all `'pipeline'`, which is not the input-validation tag `'input'`
(and is shared with every other failure the outer handler catches). -/
theorem pipeline_missing_file_c5_cex :
    (processImageModel
        ⟨false, true, ⟨true, 7, true, id, true, id, 0, true, id⟩,
          ⟨"tesseract", true, false, ⟨strL "hi", 1⟩, ⟨[], 0⟩⟩⟩).errorStage =
      some "pipeline" ∧
    some "pipeline" ≠ some "input" := by
  exact ⟨rfl, by decide⟩

/-! ### Claim C10: the quality-score key mismatch -/

lemma overall_quality_zero (o c : Str) :
    dictGet (assessTextQuality o c) "overall_quality" 0 = 0 := by
  simp only [assessTextQuality]
  split_ifs <;> rfl

/-- C10: `assess_text_quality` only ever produces the keys
`quality_score`, `word_retention`, `char_reduction`, `medical_score`,
`structure_score`, `medical_terms_found`, while the orchestrator reads
`overall_quality` with default 0.0 — so in every successfully produced
pipeline result the text-cleaning `quality_score` metadata field is 0.0
regardless of the input. -/
theorem quality_key_mismatch_c10 :
    (∀ o c : Str, dictGet (assessTextQuality o c) "overall_quality" 0 = 0) ∧
    (∀ env : PipeEnv, (processImageModel env).success = true →
      (processImageModel env).textCleaningQuality = some 0) := by
  refine ⟨overall_quality_zero, ?_⟩
  intro env h
  simp only [processImageModel] at h ⊢
  split_ifs at h ⊢ with h1 h2
  · simp [createErrorResult] at h
  · simp [createErrorResult] at h
  · revert h
    cases preprocessModel env.pre with
    | none => intro h; simp [createErrorResult] at h
    | some r => intro _; simp only [overall_quality_zero]

set_option maxRecDepth 100000 in
unseal Rat.add Rat.mul Rat.inv Rat.sub in
/-- Witness for C10: a successful run of the modelled pipeline carries
quality 0. -/
theorem quality_key_mismatch_c10_witness :
    (processImageModel
        ⟨true, true, ⟨true, 7, true, id, true, id, 0, true, id⟩,
          ⟨"tesseract", true, false, ⟨[], 0⟩, ⟨[], 0⟩⟩⟩).success = true ∧
    (processImageModel
        ⟨true, true, ⟨true, 7, true, id, true, id, 0, true, id⟩,
          ⟨"tesseract", true, false, ⟨[], 0⟩, ⟨[], 0⟩⟩⟩).textCleaningQuality =
      some 0 :=
  have hs : (processImageModel
      ⟨true, true, ⟨true, 7, true, id, true, id, 0, true, id⟩,
        ⟨"tesseract", true, false, ⟨[], 0⟩, ⟨[], 0⟩⟩⟩).success = true := by decide
  ⟨hs, quality_key_mismatch_c10.2 _ hs⟩

/-- C7 counterexample: re-running the cleaning pipeline on its own
output changes it again (`"a . . b"` cleans to `"a . b"`, which cleans
to `"a b"`), refuting `clean(clean(t)) == clean(t)`. -/
theorem clean_text_idempotence_c7_cex :
    cleanTextStr (cleanTextStr (strL "a . . b")) ≠ cleanTextStr (strL "a . . b") := by
  decide
